import Mathlib

/-!
Verification of the panel-layout and leftover-reuse engine of the Model-V7
repository (`core/services.py`, `core/views.py`, `test_universal_algorithm.py`).

The Python source is shallowly embedded: floating-point numbers are modelled
as rationals (all inputs appearing in the claims are integers, for which the
Python float arithmetic used here — `+`, `-`, `*`, `min`, comparisons — is
exact), dictionaries become structures, mutation becomes explicit state
passing, and `while` loops become fuel-indexed recursions whose completion
flag records whether the Python loop would have terminated within the given
fuel.  Optional dictionary keys are modelled with `Option`.
-/

set_option maxRecDepth 100000

/- Core marks the `Rat` field operations `@[irreducible]`, which blocks the
elaborator-side evaluation that `decide` and `rfl` rely on — the kernel
itself reduces them fine.  Restore semireducibility locally so concrete
runs of the embedded functions can be settled by `decide`. -/
set_option allowUnsafeReducibility true
attribute [local semireducible] Rat.add Rat.sub Rat.mul Rat.div Rat.neg Rat.inv
attribute [local semireducible] Rat.ofScientific

namespace ModelV7

/-- A 2-D point in millimetres (the `{'x': …, 'y': …}` dictionaries). -/
structure Pt where
  x : ℚ
  y : ℚ
deriving Repr, DecidableEq

/-- Shoelace sum over the closed cycle of points; helper shared by the two
shoelace-area functions in the source. -/
def shoelaceSum : List Pt → Pt → Pt → ℚ
  | [], first, last => last.x * first.y - first.x * last.y
  | p :: ps, first, last => (last.x * p.y - p.x * last.y) + shoelaceSum ps first p

/-- `CeilingService._calculate_polygon_area` (and the identical
`calculate_polygon_area` of `test_universal_algorithm.py`): absolute
shoelace area, `0` for fewer than three points. -/
def calculate_polygon_area (points : List Pt) : ℚ :=
  match points with
  | p0 :: p1 :: p2 :: rest => |shoelaceSum (p1 :: p2 :: rest) p0 p0| / 2
  | _ => 0

/-- `CeilingService._calculate_room_area`: same shoelace formula on the
point dictionaries, `0` for fewer than three points. -/
def calculate_room_area (points : List Pt) : ℚ :=
  calculate_polygon_area points

/-- One step of the ray-casting loop of `_is_point_in_polygon`:
`p1` is the previous vertex, the list supplies the successive `p2`s. -/
def pipLoop (x y : ℚ) : Pt → List Pt → Bool → Bool
  | _, [], inside => inside
  | p1, p2 :: rest, inside =>
      let inside :=
        if y > min p1.y p2.y ∧ y ≤ max p1.y p2.y ∧ x ≤ max p1.x p2.x then
          -- `xinters` is only consulted when `p1.y ≠ p2.y` (a horizontal edge
          -- cannot satisfy `min < y ≤ max`), so the total division is safe.
          if p1.x = p2.x ∨ x ≤ (y - p1.y) * (p2.x - p1.x) / (p2.y - p1.y) + p1.x then
            !inside
          else inside
        else inside
      pipLoop x y p2 rest inside

/-- `CeilingService._is_point_in_polygon` (ray casting; the identical code
appears in `test_universal_algorithm.py`).  The Python loop runs `n + 1`
iterations starting from `points[0]`, so the edge sequence is
`(p0,p0), (p0,p1), …, (p(n-1), p0)`. -/
def is_point_in_polygon (x y : ℚ) (points : List Pt) : Bool :=
  match points with
  | [] => false
  | p0 :: _ => pipLoop x y p0 (points ++ [p0]) false

/-- Axis-aligned bounding box dictionary. -/
structure BBox where
  min_x : ℚ
  max_y : ℚ
  max_x : ℚ
  min_y : ℚ
  width : ℚ
  height : ℚ
deriving Repr, DecidableEq

/-- `CeilingService._calculate_room_bounding_box`. -/
def calculate_room_bounding_box (points : List Pt) : Option BBox :=
  match points with
  | [] => none
  | p :: ps =>
      (some
        { min_x := (ps.map Pt.x).foldl min p.x
          max_y := (ps.map Pt.y).foldl max p.y
          max_x := (ps.map Pt.x).foldl max p.x
          min_y := (ps.map Pt.y).foldl min p.y
          width := (ps.map Pt.x).foldl max p.x - (ps.map Pt.x).foldl min p.x
          height := (ps.map Pt.y).foldl max p.y - (ps.map Pt.y).foldl min p.y })

/-- `CeilingService._calculate_project_bounding_box`: identical computation
over the concatenation of all rooms' points. -/
def calculate_project_bounding_box (points : List Pt) : Option BBox :=
  calculate_room_bounding_box points

/-- A leftover entry (`LeftoverTracker.add_leftover` dictionary).  The
Python key `width` holds the remaining width. -/
structure Leftover where
  id : String
  length : ℚ
  thickness : ℚ
  width : ℚ
  created_at : ℚ
deriving Repr, DecidableEq

/-- The `stats` counters of a `LeftoverTracker`. -/
structure TrackerStats where
  leftovers_created : ℕ
  leftovers_reused : ℕ
  full_panels_saved : ℕ
  total_leftover_area : ℚ
deriving Repr, DecidableEq

/-- `LeftoverTracker` state.  `now` models the wall-clock value
`time.time()` used for ids (fixed for one pass of the model). -/
structure LeftoverTracker where
  leftovers : List Leftover
  stats : TrackerStats
  now : ℚ
deriving Repr, DecidableEq

/-- A fresh tracker (`LeftoverTracker.__init__`). -/
def LeftoverTracker.mk0 (now : ℚ) : LeftoverTracker :=
  { leftovers := [], stats := ⟨0, 0, 0, 0⟩, now := now }

/-- `LeftoverTracker.add_leftover`: append only when
`width_remaining > 0`, bump `leftovers_created` and `total_leftover_area`. -/
def add_leftover (tr : LeftoverTracker) (length thickness width_remaining : ℚ) :
    LeftoverTracker :=
  if 0 < width_remaining then
    { tr with
      leftovers := tr.leftovers ++
        [{ id := toString ⌊tr.now * 1000⌋ ++ "_" ++ toString tr.leftovers.length
           length := length
           thickness := thickness
           width := width_remaining
           created_at := tr.now }]
      stats := { tr.stats with
        leftovers_created := tr.stats.leftovers_created + 1
        total_leftover_area := tr.stats.total_leftover_area + length * width_remaining } }
  else tr

/-- The compatibility test of `find_compatible_leftover`:
`length ≥ needed_length ∧ thickness == needed_thickness ∧ width ≥ needed_width`. -/
def leftover_matches (needed_width needed_length needed_thickness : ℚ)
    (lo : Leftover) : Bool :=
  decide (needed_length ≤ lo.length) && decide (lo.thickness = needed_thickness) &&
    decide (needed_width ≤ lo.width)

/-- `LeftoverTracker.find_compatible_leftover`: linear scan in insertion
order, first match wins. -/
def find_compatible_leftover (tr : LeftoverTracker)
    (needed_width needed_length needed_thickness : ℚ) : Option Leftover :=
  tr.leftovers.find? (leftover_matches needed_width needed_length needed_thickness)

/-- Replace the first list entry equal to `a` by `b` (models the in-place
mutation of the aliased dictionary found by the linear scan). -/
def replaceFirst : List Leftover → Leftover → Leftover → List Leftover
  | [], _, _ => []
  | x :: xs, a, b => if x = a then b :: xs else x :: replaceFirst xs a b

/-- Remove the first list entry equal to `a` (models `list.remove`). -/
def eraseFirst : List Leftover → Leftover → List Leftover
  | [], _ => []
  | x :: xs, a => if x = a then xs else x :: eraseFirst xs a

/-- `LeftoverTracker.use_leftover`: subtract `width_used`; keep the entry
with the updated width when the remainder is positive, otherwise remove it;
always bump `leftovers_reused` and `full_panels_saved`. -/
def use_leftover (tr : LeftoverTracker) (lo : Leftover) (width_used : ℚ) :
    LeftoverTracker :=
  let remaining := lo.width - width_used
  { tr with
    leftovers :=
      if 0 < remaining then
        replaceFirst tr.leftovers lo { lo with width := remaining }
      else
        eraseFirst tr.leftovers lo
    stats := { tr.stats with
      leftovers_reused := tr.stats.leftovers_reused + 1
      full_panels_saved := tr.stats.full_panels_saved + 1 } }

/-- The hard-coded stock width `MAX_PANEL_WIDTH = 1150` of
`_generate_panels_for_region` and `_generate_standard_floor_panels`. -/
def MAX_PANEL_WIDTH : ℚ := 1150

/-- The `panel_length` parameter: the string `'auto'` or a numeric custom
length (Python converts it with `float`). -/
inductive PanelLen where
  | auto : PanelLen
  | custom : ℚ → PanelLen
deriving Repr, DecidableEq

/-- A rectangular region dictionary produced by `_analyze_room_shape` /
`_split_l_shaped_room`; `rtype` is the dict key `'type'`. -/
structure Region where
  min_x : ℚ
  max_x : ℚ
  min_y : ℚ
  max_y : ℚ
  width : ℚ
  height : ℚ
  rtype : String
deriving Repr, DecidableEq

/-- A ceiling panel dictionary as emitted by `_generate_panels_for_region`.
`from_leftover` is `Option Bool` because the key may be absent from the
dictionary: the ceiling generator computes a local `from_leftover` variable
but never stores it, so every ceiling panel carries `none` here. -/
structure CeilPanel where
  start_x : ℚ
  start_y : ℚ
  end_x : ℚ
  end_y : ℚ
  width : ℚ
  length : ℚ
  is_cut : Bool
  cut_notes : String
  panel_id : String
  coverage : ℚ
  area : ℚ
  region_type : String
  from_leftover : Option Bool
deriving Repr, DecidableEq

/-- Zero-padded 3-digit counter rendering (`f"{panel_id:03d}"`). -/
def pad3 (n : ℕ) : String :=
  if n < 10 then "00" ++ toString n
  else if n < 100 then "0" ++ toString n
  else toString n

/-- Result of the leftover bookkeeping performed for one candidate panel. -/
structure CutStep where
  is_cut : Bool
  cut_notes : String
  from_leftover : Bool
  otr : Option LeftoverTracker
deriving Repr, DecidableEq

/-- The `LEFTOVER TRACKING` block of `_generate_panels_for_region` (both
orientation branches are verbatim twins): `cross` is the dimension compared
against the stock width (`panel_height` resp. `panel_width`), `stripe` the
other dimension (`current_panel_width` resp. `current_panel_height`). -/
def ceil_cut_step (otr : Option LeftoverTracker)
    (cross stripe thickness max_panel_width : ℚ) : CutStep :=
  if cross < MAX_PANEL_WIDTH then
    match otr with
    | some tr =>
        match find_compatible_leftover tr cross stripe thickness with
        | some lo =>
            { is_cut := true
              cut_notes := "From leftover " ++ lo.id
              from_leftover := true
              otr := some (use_leftover tr lo cross) }
        | none =>
            let leftover_width := MAX_PANEL_WIDTH - cross
            let tr :=
              if 0 < leftover_width then add_leftover tr stripe thickness leftover_width
              else tr
            { is_cut := true, cut_notes := "Cut from full panel"
              from_leftover := false, otr := some tr }
    | none =>
        if cross < max_panel_width then
          { is_cut := true, cut_notes := "Non-standard size"
            from_leftover := false, otr := none }
        else
          { is_cut := false, cut_notes := "", from_leftover := false, otr := none }
  else
    { is_cut := false, cut_notes := "", from_leftover := false, otr := otr }

/-- The `Additional cut checks` block: when the panel would extend past the
region boundary, force `is_cut` and merge `"Boundary extension"` into the
notes. -/
def boundary_adjust (is_cut : Bool) (notes : String) (beyond : Bool) :
    Bool × String :=
  if beyond then
    (true,
      if notes ≠ "" ∧ notes ≠ "Non-standard size" then notes ++ ", Boundary extension"
      else "Boundary extension")
  else (is_cut, notes)

/-- Result of one tiling loop: emitted panels, next panel id, tracker state,
and whether the Python `while` loop terminated within the supplied fuel. -/
structure RowResult where
  panels : List CeilPanel
  pid : ℕ
  otr : Option LeftoverTracker
  complete : Bool
deriving Repr, DecidableEq

/-- Inner `while current_y < region['max_y']` loop of the `horizontal`
branch of `_generate_panels_for_region` (one column of panels at `cur_x`
with width `cpw`). -/
def ceil_horiz_inner (region : Region) (max_panel_width cpw cur_x thickness : ℚ) :
    ℕ → ℚ → ℕ → Option LeftoverTracker → RowResult
  | 0, cur_y, pid, otr =>
      if cur_y < region.max_y then ⟨[], pid, otr, false⟩ else ⟨[], pid, otr, true⟩
  | fuel + 1, cur_y, pid, otr =>
      if cur_y < region.max_y then
        let ph := min max_panel_width (region.max_y - cur_y)
        if 0 < ph ∧ 0 < cpw then
          let s := ceil_cut_step otr ph cpw thickness max_panel_width
          let b := boundary_adjust s.is_cut s.cut_notes
            (decide (region.max_x < cur_x + cpw) || decide (region.max_y < cur_y + ph))
          let p : CeilPanel :=
            { start_x := cur_x, start_y := cur_y
              end_x := cur_x + cpw, end_y := cur_y + ph
              width := cpw, length := ph
              is_cut := b.1, cut_notes := b.2
              panel_id := "CP_H_" ++ pad3 pid
              coverage := 1, area := cpw * ph
              region_type := region.rtype
              from_leftover := none }
          let rest := ceil_horiz_inner region max_panel_width cpw cur_x thickness
            fuel (cur_y + ph) (pid + 1) s.otr
          ⟨p :: rest.panels, rest.pid, rest.otr, rest.complete⟩
        else
          ceil_horiz_inner region max_panel_width cpw cur_x thickness
            fuel (cur_y + ph) pid otr
      else ⟨[], pid, otr, true⟩

/-- Outer `while current_x < region['max_x']` loop of the `horizontal`
branch; advances by the uncapped `panel_width` (`step_x`). -/
def ceil_horiz_outer (region : Region) (max_panel_width step_x thickness : ℚ)
    (innerFuel : ℕ) :
    ℕ → ℚ → ℕ → Option LeftoverTracker → RowResult
  | 0, cur_x, pid, otr =>
      if cur_x < region.max_x then ⟨[], pid, otr, false⟩ else ⟨[], pid, otr, true⟩
  | fuel + 1, cur_x, pid, otr =>
      if cur_x < region.max_x then
        let cpw := min step_x (region.max_x - cur_x)
        let row := ceil_horiz_inner region max_panel_width cpw cur_x thickness
          innerFuel region.min_y pid otr
        let rest := ceil_horiz_outer region max_panel_width step_x thickness innerFuel
          fuel (cur_x + step_x) row.pid row.otr
        ⟨row.panels ++ rest.panels, rest.pid, rest.otr, row.complete && rest.complete⟩
      else ⟨[], pid, otr, true⟩

/-- Inner `while current_x < region['max_x']` loop of the `vertical` branch
(one row of panels at `cur_y` with height `cph`). -/
def ceil_vert_inner (region : Region) (max_panel_width cph cur_y thickness : ℚ) :
    ℕ → ℚ → ℕ → Option LeftoverTracker → RowResult
  | 0, cur_x, pid, otr =>
      if cur_x < region.max_x then ⟨[], pid, otr, false⟩ else ⟨[], pid, otr, true⟩
  | fuel + 1, cur_x, pid, otr =>
      if cur_x < region.max_x then
        let pw := min max_panel_width (region.max_x - cur_x)
        if 0 < pw ∧ 0 < cph then
          let s := ceil_cut_step otr pw cph thickness max_panel_width
          let b := boundary_adjust s.is_cut s.cut_notes
            (decide (region.max_x < cur_x + pw) || decide (region.max_y < cur_y + cph))
          let p : CeilPanel :=
            { start_x := cur_x, start_y := cur_y
              end_x := cur_x + pw, end_y := cur_y + cph
              width := pw, length := cph
              is_cut := b.1, cut_notes := b.2
              panel_id := "CP_V_" ++ pad3 pid
              coverage := 1, area := pw * cph
              region_type := region.rtype
              from_leftover := none }
          let rest := ceil_vert_inner region max_panel_width cph cur_y thickness
            fuel (cur_x + pw) (pid + 1) s.otr
          ⟨p :: rest.panels, rest.pid, rest.otr, rest.complete⟩
        else
          ceil_vert_inner region max_panel_width cph cur_y thickness
            fuel (cur_x + pw) pid otr
      else ⟨[], pid, otr, true⟩

/-- Outer `while current_y < region['max_y']` loop of the `vertical` branch;
advances by the uncapped `panel_height` (`step_y`). -/
def ceil_vert_outer (region : Region) (max_panel_width step_y thickness : ℚ)
    (innerFuel : ℕ) :
    ℕ → ℚ → ℕ → Option LeftoverTracker → RowResult
  | 0, cur_y, pid, otr =>
      if cur_y < region.max_y then ⟨[], pid, otr, false⟩ else ⟨[], pid, otr, true⟩
  | fuel + 1, cur_y, pid, otr =>
      if cur_y < region.max_y then
        let cph := min step_y (region.max_y - cur_y)
        let row := ceil_vert_inner region max_panel_width cph cur_y thickness
          innerFuel region.min_x pid otr
        let rest := ceil_vert_outer region max_panel_width step_y thickness innerFuel
          fuel (cur_y + step_y) row.pid row.otr
        ⟨row.panels ++ rest.panels, rest.pid, rest.otr, row.complete && rest.complete⟩
      else ⟨[], pid, otr, true⟩

/-- Fuel sufficient for a walk from `lo` to `hi` whose every iteration
advances by at least `min step (hi - cur)`; `0` when the step is not
positive (the Python loop would not terminate). -/
def regionFuel (lo hi step : ℚ) : ℕ :=
  if 0 < step then (⌈(hi - lo) / step⌉).toNat + 1 else 0

/-- `CeilingService._generate_panels_for_region`.  Dispatch:
`orientation == 'horizontal'` takes the horizontal branch, anything else the
vertical branch, exactly as the `if/else` in the source. -/
def generate_panels_for_region (region : Region) (orientation : String)
    (max_panel_width : ℚ) (start_panel_id : ℕ) (panel_length : PanelLen)
    (otr : Option LeftoverTracker) (ceiling_thickness : ℚ) : RowResult :=
  if orientation = "horizontal" then
    let step_x := match panel_length with
      | .auto => region.width
      | .custom v => v
    ceil_horiz_outer region max_panel_width step_x ceiling_thickness
      (regionFuel region.min_y region.max_y max_panel_width)
      (regionFuel region.min_x region.max_x step_x)
      region.min_x start_panel_id otr
  else
    let step_y := match panel_length with
      | .auto => region.height
      | .custom v => v
    ceil_vert_outer region max_panel_width step_y ceiling_thickness
      (regionFuel region.min_x region.max_x max_panel_width)
      (regionFuel region.min_y region.max_y step_y)
      region.min_y start_panel_id otr

/-- `CeilingService._detect_l_shape`: bounding-box to shoelace area ratio
below `0.8` flags an L-shape; a zero bounding-box area raises
`ZeroDivisionError` in Python, which the local handler turns into `False`. -/
def detect_l_shape (points : List Pt) : Bool :=
  if points.length < 4 then false
  else
    match points with
    | [] => false
    | p :: ps =>
        let minX := (ps.map Pt.x).foldl min p.x
        let maxX := (ps.map Pt.x).foldl max p.x
        let minY := (ps.map Pt.y).foldl min p.y
        let maxY := (ps.map Pt.y).foldl max p.y
        let room_area := (maxX - minX) * (maxY - minY)
        if room_area = 0 then false
        else decide (calculate_polygon_area points / room_area < 0.8)

/-- `CeilingService._create_vertical_split_regions` (extremes of the
coordinate lists are all the function reads). -/
def create_vertical_split_regions (minX maxX minY maxY cutout_x cutout_y : ℚ) :
    List Region :=
  [{ min_x := minX, max_x := cutout_x, min_y := cutout_y, max_y := maxY
     width := cutout_x - minX, height := maxY - cutout_y
     rtype := "bottom_left_vertical_arm" },
   { min_x := cutout_x, max_x := maxX, min_y := minY, max_y := maxY
     width := maxX - cutout_x, height := maxY - minY
     rtype := "right_vertical_arm" }]

/-- `CeilingService._create_horizontal_split_regions`. -/
def create_horizontal_split_regions (minX maxX minY maxY cutout_x cutout_y : ℚ) :
    List Region :=
  [{ min_x := cutout_x, max_x := maxX, min_y := minY, max_y := cutout_y
     width := maxX - cutout_x, height := cutout_y - minY
     rtype := "top_right_arm" },
   { min_x := minX, max_x := maxX, min_y := cutout_y, max_y := maxY
     width := maxX - minX, height := maxY - cutout_y
     rtype := "bottom_arm" }]

/-- The cutout-search loop of `_split_l_shaped_room`: keep the first
non-extreme vertex, replacing it whenever a later candidate is strictly
larger in both coordinates. -/
def find_cutout (minX maxX minY maxY : ℚ) : List Pt → Option (ℚ × ℚ) → Option (ℚ × ℚ)
  | [], acc => acc
  | p :: ps, acc =>
      let acc :=
        if p.x ≠ minX ∧ p.x ≠ maxX ∧ p.y ≠ minY ∧ p.y ≠ maxY then
          match acc with
          | none => some (p.x, p.y)
          | some (cx, cy) => if p.x > cx ∧ p.y > cy then some (p.x, p.y) else acc
        else acc
      find_cutout minX maxX minY maxY ps acc

/-- `CeilingService._split_l_shaped_room`.  Note the Python truthiness test
`if not cutout_x or not cutout_y` also rejects a cutout lying on a zero
coordinate. -/
def split_l_shaped_room (points : List Pt) (orientation : String) : List Region :=
  match points with
  | [] => []
  | p :: ps =>
      let minX := (ps.map Pt.x).foldl min p.x
      let maxX := (ps.map Pt.x).foldl max p.x
      let minY := (ps.map Pt.y).foldl min p.y
      let maxY := (ps.map Pt.y).foldl max p.y
      match find_cutout minX maxX minY maxY points none with
      | none => []
      | some (cx, cy) =>
          if cx = 0 ∨ cy = 0 then []
          else if orientation = "vertical" then
            create_vertical_split_regions minX maxX minY maxY cx cy
          else
            create_horizontal_split_regions minX maxX minY maxY cx cy

/-- `CeilingService._analyze_room_shape`. -/
def analyze_room_shape (room_points : List Pt) (bounding_box : BBox)
    (orientation : String) : List Region :=
  if room_points.length < 3 then []
  else if detect_l_shape room_points then
    split_l_shaped_room room_points orientation
  else
    [{ min_x := bounding_box.min_x, max_x := bounding_box.max_x
       min_y := bounding_box.min_y, max_y := bounding_box.max_y
       width := bounding_box.width, height := bounding_box.height
       rtype := "rectangular" }]

/-- `CeilingService._calculate_enhanced_panel_coverage`. -/
def calculate_enhanced_panel_coverage (start_x start_y width height : ℚ)
    (room_points : List Pt) : ℚ :=
  let center_x := start_x + width / 2
  let center_y := start_y + height / 2
  if is_point_in_polygon center_x center_y room_points then 1
  else
    let corners : List Pt :=
      [⟨start_x, start_y⟩, ⟨start_x + width, start_y⟩,
       ⟨start_x + width, start_y + height⟩, ⟨start_x, start_y + height⟩]
    let corners_in_room :=
      (corners.filter fun c => is_point_in_polygon c.x c.y room_points).length
    if corners_in_room = 0 then 0
    else if corners_in_room = 4 then 1
    else (corners_in_room : ℚ) / 4

/-- Rendering of `f"{coverage:.1%}"` used by the shape-adjust note.  The
numeric value is `coverage × 100` with one decimal digit; exact decimal ties
round half-up here where CPython rounds half-even (the modelled runs never
hit a tie). -/
def format_percent1 (q : ℚ) : String :=
  let m : ℤ := round (q * 1000)
  toString (m / 10) ++ "." ++ toString (m % 10) ++ "%"

/-- `CeilingService._adjust_panel_to_room_boundaries`. -/
def adjust_panel_to_room_boundaries (panel : CeilPanel) (room_points : List Pt) :
    Option CeilPanel :=
  let cov := calculate_enhanced_panel_coverage panel.start_x panel.start_y
    panel.width panel.length room_points
  if cov > 0.8 then some panel
  else if cov > 0.3 then
    some { panel with
      is_cut := true
      cut_notes := "Shape adjusted - " ++ format_percent1 cov ++ " coverage" }
  else none

/-- `CeilingService._optimize_panels_for_room_shape`: keep panels whose
coverage exceeds `0.5`, after boundary adjustment. -/
def optimize_panels_for_room_shape (panels : List CeilPanel)
    (room_points : List Pt) : List CeilPanel :=
  panels.filterMap fun panel =>
    let cov := calculate_enhanced_panel_coverage panel.start_x panel.start_y
      panel.width panel.length room_points
    if cov > 0.5 then adjust_panel_to_room_boundaries panel room_points
    else none

/-- The per-region loop of `_generate_shape_aware_panels`:
`panel_id += len(region_panels)` after each region, one tracker threaded
through all regions. -/
def shape_aware_go (orientation : String) (max_panel_width : ℚ) (pl : PanelLen)
    (thickness : ℚ) :
    List Region → ℕ → Option LeftoverTracker → List CeilPanel × Option LeftoverTracker
  | [], _, otr => ([], otr)
  | region :: rest, pid, otr =>
      let r := generate_panels_for_region region orientation max_panel_width pid pl
        otr thickness
      let tail := shape_aware_go orientation max_panel_width pl thickness rest
        (pid + r.panels.length) r.otr
      (r.panels ++ tail.1, tail.2)

/-- `CeilingService._generate_shape_aware_panels`.  When shape analysis
yields no regions the source's fallback call raises a `TypeError` (it passes
seven arguments to a five-parameter function), modelled as `none`. -/
def generate_shape_aware_panels (bounding_box : BBox) (room_points : List Pt)
    (orientation : String) (max_panel_width : ℚ) (panel_length : PanelLen)
    (otr : Option LeftoverTracker) (ceiling_thickness : ℚ) :
    Option (List CeilPanel × Option LeftoverTracker) :=
  let room_regions := analyze_room_shape room_points bounding_box orientation
  if room_regions.isEmpty then none
  else
    let r := shape_aware_go orientation max_panel_width panel_length
      ceiling_thickness room_regions 1 otr
    some (optimize_panels_for_room_shape r.1 room_points, r.2)

/-- `CeilingService._generate_horizontal_panels` (used for the *vertical*
orientation).  The `bounding_box` argument is ignored by the source, which
recomputes the room-specific box; `none` models the `TypeError` raised on an
empty point list. -/
def generate_horizontal_panels (bounding_box : Option BBox) (room_points : List Pt)
    (panel_width : ℚ) (panel_length : PanelLen) (otr : Option LeftoverTracker)
    (ceiling_thickness : ℚ) : Option (List CeilPanel × Option LeftoverTracker) :=
  match calculate_room_bounding_box room_points with
  | none => none
  | some room_bounding_box =>
      generate_shape_aware_panels room_bounding_box room_points "vertical"
        panel_width panel_length otr ceiling_thickness

/-- `CeilingService._generate_vertical_panels` (used for the *horizontal*
orientation).  Its local `panel_width` recomputation from `panel_length` is
dead code in the source (the shape-aware call receives `panel_length`
itself) and is not modelled. -/
def generate_vertical_panels (bounding_box : Option BBox) (room_points : List Pt)
    (panel_width : ℚ) (panel_length : PanelLen) (otr : Option LeftoverTracker)
    (ceiling_thickness : ℚ) : Option (List CeilPanel × Option LeftoverTracker) :=
  match calculate_room_bounding_box room_points with
  | none => none
  | some room_bounding_box =>
      generate_shape_aware_panels room_bounding_box room_points "horizontal"
        panel_width panel_length otr ceiling_thickness

/-- A `room_info` dictionary built by `analyze_project_heights`. -/
structure RoomInfo where
  id : ℤ
  name : String
  points : List Pt
  area : ℚ
  center : Option Pt
  bounding_box : Option BBox
deriving Repr, DecidableEq

/-- `CeilingService._calculate_room_center`. -/
def calculate_room_center (points : List Pt) : Option Pt :=
  if points.length < 3 then none
  else
    some ⟨(points.map Pt.x).sum / points.length, (points.map Pt.y).sum / points.length⟩

/-- `CeilingService._generate_panels_with_orientation`: `'vertical'` routes
to `_generate_horizontal_panels`, everything else to
`_generate_vertical_panels`; its exception handler returns `[]` (tracker
mutations made before the raise would persist, but both modelled raise
points precede any tracking). -/
def generate_panels_with_orientation (room_info : RoomInfo) (orientation : String)
    (panel_width : ℚ) (panel_length : PanelLen) (otr : Option LeftoverTracker)
    (ceiling_thickness : ℚ) : List CeilPanel × Option LeftoverTracker :=
  let r :=
    if orientation = "vertical" then
      generate_horizontal_panels room_info.bounding_box room_info.points
        panel_width panel_length otr ceiling_thickness
    else
      generate_vertical_panels room_info.bounding_box room_info.points
        panel_width panel_length otr ceiling_thickness
  match r with
  | some out => out
  | none => ([], otr)

/-- `CeilingService._calculate_room_waste`: waste area
`max 0 (total panel area − room area)`, `0` for an empty panel list. -/
def calculate_room_waste (panels : List CeilPanel) (room_info : RoomInfo) : ℚ :=
  if panels.isEmpty then 0
  else max 0 ((panels.map fun p => p.width * p.length).sum - room_info.area)

/-- A per-room entry of a strategy's `room_results`; `alternatives` holds
the `((panels, waste)` for vertical, same for horizontal`)` pair that only
the independent evaluation records. -/
structure RoomStratResult where
  room_id : ℤ
  room_name : String
  orientation : String
  panels : ℕ
  waste_area : ℚ
  waste_percentage : ℚ
  area : ℚ
  alternatives : Option ((ℕ × ℚ) × (ℕ × ℚ))
deriving Repr, DecidableEq

/-- Return value of the two group evaluators. -/
structure GroupEval where
  total_panels : ℕ
  total_waste_area : ℚ
  total_room_area : ℚ
  room_results : List RoomStratResult
  leftover_area : ℚ
  leftover_waste_percentage : ℚ
deriving Repr, DecidableEq

/-- Per-room loop of `_evaluate_group_fixed_orientation` (one shared
tracker threads through all rooms of the group). -/
def group_fixed_go (orientation : String) (panel_width : ℚ) (panel_length : PanelLen)
    (thickness : ℚ) :
    List RoomInfo → Option LeftoverTracker →
      (ℕ × ℚ × ℚ × List RoomStratResult) × Option LeftoverTracker
  | [], otr => ((0, 0, 0, []), otr)
  | room :: rest, otr =>
      let g := generate_panels_with_orientation room orientation panel_width
        panel_length otr thickness
      let room_waste := calculate_room_waste g.1 room
      let room_panel_area := (g.1.map fun p => p.width * p.length).sum
      let rr : RoomStratResult :=
        { room_id := room.id, room_name := room.name, orientation := orientation
          panels := g.1.length, waste_area := room_waste
          waste_percentage := if 0 < room_panel_area then room_waste / room_panel_area * 100 else 0
          area := room.area, alternatives := none }
      let tail := group_fixed_go orientation panel_width panel_length thickness rest g.2
      ((g.1.length + tail.1.1, room_waste + tail.1.2.1,
        room.area + tail.1.2.2.1, rr :: tail.1.2.2.2), tail.2)

/-- `CeilingService._evaluate_group_fixed_orientation`.  The rooms'
dictionaries never carry a `ceiling_thickness` key, so the
`.get('ceiling_thickness', 20.0)` in the source always yields `20`. -/
def evaluate_group_fixed_orientation (rooms : List RoomInfo) (orientation : String)
    (panel_width : ℚ) (panel_length : PanelLen) : GroupEval :=
  let r := group_fixed_go orientation panel_width panel_length 20 rooms
    (some (LeftoverTracker.mk0 0))
  let leftover_area := match r.2 with
    | some tr => tr.stats.total_leftover_area
    | none => 0
  { total_panels := r.1.1, total_waste_area := r.1.2.1
    total_room_area := r.1.2.2.1, room_results := r.1.2.2.2
    leftover_area := leftover_area
    leftover_waste_percentage :=
      if 0 < r.1.2.2.1 then leftover_area / r.1.2.2.1 * 100 else 0 }

/-- Per-room loop of `_evaluate_group_independent_orientation`: both
orientations are generated, in this order, against the same shared tracker;
the vertical result wins ties. -/
def group_indep_go (panel_width : ℚ) (panel_length : PanelLen) (thickness : ℚ) :
    List RoomInfo → Option LeftoverTracker →
      (ℕ × ℚ × ℚ × List RoomStratResult) × Option LeftoverTracker
  | [], otr => ((0, 0, 0, []), otr)
  | room :: rest, otr =>
      let v := generate_panels_with_orientation room "vertical" panel_width
        panel_length otr thickness
      let h := generate_panels_with_orientation room "horizontal" panel_width
        panel_length v.2 thickness
      let vertical_waste := calculate_room_waste v.1 room
      let horizontal_waste := calculate_room_waste h.1 room
      let best :=
        if vertical_waste ≤ horizontal_waste then ("vertical", v.1, vertical_waste)
        else ("horizontal", h.1, horizontal_waste)
      let best_panel_area := (best.2.1.map fun p => p.width * p.length).sum
      let rr : RoomStratResult :=
        { room_id := room.id, room_name := room.name, orientation := best.1
          panels := best.2.1.length, waste_area := best.2.2
          waste_percentage := if 0 < best_panel_area then best.2.2 / best_panel_area * 100 else 0
          area := room.area
          alternatives := some ((v.1.length, vertical_waste), (h.1.length, horizontal_waste)) }
      let tail := group_indep_go panel_width panel_length thickness rest h.2
      ((best.2.1.length + tail.1.1, best.2.2 + tail.1.2.1,
        room.area + tail.1.2.2.1, rr :: tail.1.2.2.2), tail.2)

/-- `CeilingService._evaluate_group_independent_orientation`. -/
def evaluate_group_independent_orientation (rooms : List RoomInfo)
    (panel_width : ℚ) (panel_length : PanelLen) : GroupEval :=
  let r := group_indep_go panel_width panel_length 20 rooms
    (some (LeftoverTracker.mk0 0))
  let leftover_area := match r.2 with
    | some tr => tr.stats.total_leftover_area
    | none => 0
  { total_panels := r.1.1, total_waste_area := r.1.2.1
    total_room_area := r.1.2.2.1, room_results := r.1.2.2.2
    leftover_area := leftover_area
    leftover_waste_percentage :=
      if 0 < r.1.2.2.1 then leftover_area / r.1.2.2.1 * 100 else 0 }

/-- A height group of `analyze_project_heights`.  The square-root based
entries of `optimization_metrics` (`shape_complexity`,
`optimization_potential`) are irrational display-only values consumed by
nothing modelled here and are omitted; `area_efficiency` is kept. -/
structure HeightGroup where
  rooms : List RoomInfo
  total_area : ℚ
  room_count : ℕ
  bounding_box : Option BBox
  can_merge : Bool
  area_efficiency : ℚ
deriving Repr, DecidableEq

/-- Result of `analyze_project_heights` (the fields consumed by the
strategy evaluator; `height_groups` keeps Python's dict insertion order). -/
structure HeightAnalysis where
  height_groups : List (ℚ × HeightGroup)
  all_same_height : Bool
  total_rooms : ℕ
  total_project_area : ℚ
deriving Repr, DecidableEq

/-- `CeilingService._can_merge_rooms_for_ceiling`: at least two rooms and
area efficiency strictly above `0.7`. -/
def can_merge_rooms_for_ceiling (rooms : List RoomInfo) (bb : Option BBox) : Bool :=
  if rooms.length ≤ 1 then false
  else
    let total_area := (rooms.map RoomInfo.area).sum
    let merged_bounding_area := match bb with
      | some b => b.width * b.height
      | none => 0
    let area_efficiency :=
      if 0 < merged_bounding_area then total_area / merged_bounding_area else 0
    decide (area_efficiency > 0.7)

/-- The `area_efficiency` entry of
`_calculate_group_optimization_metrics`. -/
def group_area_efficiency (rooms : List RoomInfo) (bb : Option BBox) : ℚ :=
  let total_room_area := (rooms.map RoomInfo.area).sum
  let bounding_area := match bb with
    | some b => b.width * b.height
    | none => 0
  if 0 < bounding_area then total_room_area / bounding_area else 0

/-- A room row as the collaborator store hands it to the core. -/
structure RoomIn where
  id : ℤ
  room_name : String
  room_points : List Pt
  height : Option ℚ
deriving Repr, DecidableEq

/-- `room.height or project.height`: Python truthiness falls back to the
project height when the room height is `None` *or zero*. -/
def room_effective_height (project_height : ℚ) (room : RoomIn) : ℚ :=
  match room.height with
  | some h => if h = 0 then project_height else h
  | none => project_height

/-- Append a room to its height group, creating the group at the end on
first sight (Python dict insertion order). -/
def insertRoomByHeight (h : ℚ) (ri : RoomInfo) :
    List (ℚ × List RoomInfo) → List (ℚ × List RoomInfo)
  | [] => [(h, [ri])]
  | (k, rs) :: rest =>
      if k = h then (k, rs ++ [ri]) :: rest
      else (k, rs) :: insertRoomByHeight h ri rest

/-- The room-grouping loop of `analyze_project_heights`: invalid rooms
(fewer than three points or non-positive area) are skipped. -/
def group_rooms_by_height (project_height : ℚ) :
    List RoomIn → List (ℚ × List RoomInfo) → List (ℚ × List RoomInfo)
  | [], groups => groups
  | room :: rest, groups =>
      if room.room_points.length < 3 then
        group_rooms_by_height project_height rest groups
      else
        let room_area := calculate_room_area room.room_points
        if room_area ≤ 0 then group_rooms_by_height project_height rest groups
        else
          let ri : RoomInfo :=
            { id := room.id, name := room.room_name, points := room.room_points
              area := room_area
              center := calculate_room_center room.room_points
              bounding_box := calculate_room_bounding_box room.room_points }
          group_rooms_by_height project_height rest
            (insertRoomByHeight (room_effective_height project_height room) ri groups)

/-- `CeilingService.analyze_project_heights`, starting from the list of
rooms the store returns for the project (`none` models the
`'No rooms found in project'` error for an empty list). -/
def analyze_project_heights (project_height : ℚ) (rooms : List RoomIn) :
    Option HeightAnalysis :=
  if rooms.isEmpty then none
  else
    let raw := group_rooms_by_height project_height rooms []
    let groups := raw.map fun hg =>
      let all_group_points := (hg.2.map RoomInfo.points).flatten
      let bb := calculate_project_bounding_box all_group_points
      (hg.1,
        ({ rooms := hg.2
           total_area := (hg.2.map RoomInfo.area).sum
           room_count := hg.2.length
           bounding_box := bb
           can_merge := can_merge_rooms_for_ceiling hg.2 bb
           area_efficiency := group_area_efficiency hg.2 bb } : HeightGroup))
    some
      { height_groups := groups
        all_same_height := groups.length = 1
        total_rooms := (groups.map fun hg => hg.2.room_count).sum
        total_project_area := (groups.map fun hg => hg.2.total_area).sum }

/-- `CeilingService._panel_covers_room`: panel center inside the room's
bounding box (inclusive). -/
def panel_covers_room (panel : CeilPanel) (room : RoomInfo) : Bool :=
  let panel_center_x := (panel.start_x + panel.end_x) / 2
  let panel_center_y := (panel.start_y + panel.end_y) / 2
  match room.bounding_box with
  | none => false
  | some bb =>
      decide (bb.min_x ≤ panel_center_x) && decide (panel_center_x ≤ bb.max_x) &&
        decide (bb.min_y ≤ panel_center_y) && decide (panel_center_y ≤ bb.max_y)

/-- The `merge_benefits` dictionary of the *last* definition of
`_calculate_merge_benefits` (Python keeps the final one of the three);
`none` models its exception dictionary, reachable only without a bounding
box. -/
structure MergeBenefits where
  merged_total_area : ℚ
  total_individual_rooms_area : ℚ
  potential_waste_reduction : ℚ
  efficiency_improvement : ℚ
  merge_advantage : Bool
deriving Repr, DecidableEq

def calculate_merge_benefits (rooms : List RoomInfo) (bb : Option BBox) :
    Option MergeBenefits :=
  match bb with
  | none => none
  | some b =>
      let merged_total_area := b.width * b.height
      let total_individual_rooms_area := (rooms.map RoomInfo.area).sum
      let potential_waste_reduction := merged_total_area - total_individual_rooms_area
      some
        { merged_total_area := merged_total_area
          total_individual_rooms_area := total_individual_rooms_area
          potential_waste_reduction := potential_waste_reduction
          efficiency_improvement :=
            if 0 < merged_total_area then total_individual_rooms_area / merged_total_area * 100 else 0
          merge_advantage := decide (potential_waste_reduction > 0) }

/-- `CeilingService._generate_panels_for_merged_area`: hard-coded
`_generate_horizontal_panels(bb, all_points, 1150, 'auto')` — no leftover
tracker, default thickness `20.0`; exceptions fall back to `[]`. -/
def generate_panels_for_merged_area (bb : Option BBox) (all_points : List Pt) :
    List CeilPanel :=
  match generate_horizontal_panels bb all_points 1150 PanelLen.auto none 20 with
  | some r => r.1
  | none => []

/-- Return value of `_evaluate_merged_strategy`. -/
structure MergedEval where
  total_panels : ℕ
  waste_percentage : ℚ
  waste_area : ℚ
  total_room_area : ℚ
  room_results : List RoomStratResult
  merge_benefits : Option MergeBenefits
deriving Repr, DecidableEq

/-- `CeilingService._evaluate_merged_strategy`, using the *last*
definitions of `_calculate_merged_waste` (panel area minus room area) and
`_calculate_merge_benefits`; the `match []` branch models the exception
fallback dictionary (`waste 100`). -/
def evaluate_merged_strategy (ha : HeightAnalysis) : MergedEval :=
  match ha.height_groups with
  | [] =>
      { total_panels := 0, waste_percentage := 100, waste_area := 0
        total_room_area := 0, room_results := [], merge_benefits := none }
  | (_, g) :: _ =>
      let all_points := (g.rooms.map RoomInfo.points).flatten
      let total_room_area := (g.rooms.map RoomInfo.area).sum
      let merged_bounding_box := calculate_project_bounding_box all_points
      let merged_panels := generate_panels_for_merged_area merged_bounding_box all_points
      let merged_waste :=
        max 0 ((merged_panels.map fun p => p.width * p.length).sum - total_room_area)
      { total_panels := merged_panels.length
        waste_percentage :=
          if 0 < total_room_area then merged_waste / total_room_area * 100 else 0
        waste_area := merged_waste
        total_room_area := total_room_area
        room_results := g.rooms.map fun room =>
          { room_id := room.id, room_name := room.name, orientation := "merged"
            panels := (merged_panels.filter fun p => panel_covers_room p room).length
            waste_area := 0, waste_percentage := 0, area := room.area
            alternatives := none }
        merge_benefits := calculate_merge_benefits g.rooms merged_bounding_box }

/-- A candidate strategy dictionary of `analyze_orientation_strategies`. -/
structure Strategy where
  strategy_name : String
  orientation_type : String
  total_panels : ℕ
  total_waste_percentage : ℚ
  total_waste_area : ℚ
  total_room_area : ℚ
  room_results : List RoomStratResult
  total_leftover_area : Option ℚ
  height_groups_analyzed : Option ℕ
  merge_benefits : Option MergeBenefits
  is_recommended : Bool
deriving Repr, DecidableEq

/-- The per-height-group loop of `_evaluate_strategy` (non-merged path). -/
def eval_strategy_groups (orientation_type : String) (panel_width : ℚ)
    (panel_length : PanelLen) :
    List (ℚ × HeightGroup) → ℕ × ℚ × ℚ × ℚ × List RoomStratResult
  | [] => (0, 0, 0, 0, [])
  | (_, g) :: rest =>
      let gr :=
        if orientation_type = "independent" then
          evaluate_group_independent_orientation g.rooms panel_width panel_length
        else
          evaluate_group_fixed_orientation g.rooms orientation_type panel_width panel_length
      let tail := eval_strategy_groups orientation_type panel_width panel_length rest
      (gr.total_panels + tail.1, gr.total_waste_area + tail.2.1,
        gr.total_room_area + tail.2.2.1, gr.leftover_area + tail.2.2.2.1,
        gr.room_results ++ tail.2.2.2.2)

/-- `CeilingService._evaluate_strategy`. -/
def evaluate_strategy (ha : HeightAnalysis) (orientation_type strategy_name : String)
    (panel_width : ℚ) (panel_length : PanelLen) : Strategy :=
  if orientation_type = "merged" then
    let r := evaluate_merged_strategy ha
    { strategy_name := strategy_name, orientation_type := orientation_type
      total_panels := r.total_panels
      total_waste_percentage := r.waste_percentage
      total_waste_area := r.waste_area
      total_room_area := r.total_room_area
      room_results := r.room_results
      total_leftover_area := none, height_groups_analyzed := none
      merge_benefits := r.merge_benefits, is_recommended := false }
  else
    let t := eval_strategy_groups orientation_type panel_width panel_length ha.height_groups
    { strategy_name := strategy_name, orientation_type := orientation_type
      total_panels := t.1
      total_waste_percentage := if 0 < t.2.2.1 then t.2.2.2.1 / t.2.2.1 * 100 else 0
      total_waste_area := t.2.1
      total_room_area := t.2.2.1
      room_results := t.2.2.2.2
      total_leftover_area := some t.2.2.2.1
      height_groups_analyzed := some ha.height_groups.length
      merge_benefits := none, is_recommended := false }

/-- Stable insertion into a list already sorted by
`total_waste_percentage`.  In `sortByWaste` the inserted element precedes
every element of the sorted tail in the original order, so it must be
placed *before* equal keys; equal keys then keep their relative order,
matching Python's stable `list.sort`. -/
def insertByWaste (s : Strategy) : List Strategy → List Strategy
  | [] => [s]
  | t :: ts =>
      if t.total_waste_percentage < s.total_waste_percentage then t :: insertByWaste s ts
      else s :: t :: ts

/-- Stable sort by `total_waste_percentage`
(`strategies.sort(key=lambda x: x['total_waste_percentage'])`). -/
def sortByWaste : List Strategy → List Strategy
  | [] => []
  | s :: ss => insertByWaste s (sortByWaste ss)

/-- Result of `analyze_orientation_strategies` (the fields the claims
consume; the `summary` block is derived display data). -/
structure OrientationAnalysis where
  strategies : List Strategy
  recommended_strategy : String
deriving Repr, DecidableEq

/-- The candidate list built by `analyze_orientation_strategies`, in
evaluation order: all_vertical, all_horizontal, room_optimal, and — exactly
when `all_same_height` — project_merged. -/
def build_strategies (ha : HeightAnalysis) (panel_width : ℚ)
    (panel_length : PanelLen) : List Strategy :=
  [evaluate_strategy ha "vertical" "all_vertical" panel_width panel_length,
   evaluate_strategy ha "horizontal" "all_horizontal" panel_width panel_length,
   evaluate_strategy ha "independent" "room_optimal" panel_width panel_length] ++
    (if ha.all_same_height then
      [evaluate_strategy ha "merged" "project_merged" panel_width panel_length]
    else [])

/-- `CeilingService.analyze_orientation_strategies`: evaluate the
candidates, stable-sort by waste, recommend the head. -/
def analyze_orientation_strategies (project_height : ℚ) (rooms : List RoomIn)
    (panel_width : ℚ) (panel_length : PanelLen) : Option OrientationAnalysis :=
  match analyze_project_heights project_height rooms with
  | none => none
  | some ha =>
      let sorted := sortByWaste (build_strategies ha panel_width panel_length)
      match sorted with
      | [] => none
      | best :: rest =>
          some
            { strategies :=
                { best with is_recommended := true } ::
                  rest.map fun s => { s with is_recommended := false }
              recommended_strategy := best.strategy_name }

/-- A floor panel dictionary as emitted by `_generate_standard_floor_panels`
(this one *does* carry the `from_leftover` key). -/
structure FloorPanel where
  panel_id : String
  start_x : ℚ
  start_y : ℚ
  end_x : ℚ
  end_y : ℚ
  width : ℚ
  length : ℚ
  is_cut : Bool
  cut_notes : String
  from_leftover : Bool
deriving Repr, DecidableEq

/-- The `LEFTOVER TRACKING` block of `_generate_standard_floor_panels`
(identical to the ceiling one except that the tracker-less fallback marks
the panel cut unconditionally). -/
def floor_cut_step (otr : Option LeftoverTracker) (cross stripe thickness : ℚ) :
    CutStep :=
  if cross < MAX_PANEL_WIDTH then
    match otr with
    | some tr =>
        match find_compatible_leftover tr cross stripe thickness with
        | some lo =>
            { is_cut := true
              cut_notes := "From leftover " ++ lo.id
              from_leftover := true
              otr := some (use_leftover tr lo cross) }
        | none =>
            let leftover_width := MAX_PANEL_WIDTH - cross
            let tr :=
              if 0 < leftover_width then add_leftover tr stripe thickness leftover_width
              else tr
            { is_cut := true, cut_notes := "Cut from full panel"
              from_leftover := false, otr := some tr }
    | none =>
        { is_cut := true, cut_notes := "Non-standard size"
          from_leftover := false, otr := none }
  else
    { is_cut := false, cut_notes := "", from_leftover := false, otr := otr }

/-- The floor generator's boundary-extension block (no `"Non-standard
size"` exemption, unlike the ceiling one). -/
def floor_boundary_adjust (is_cut : Bool) (notes : String) (beyond : Bool) :
    Bool × String :=
  if beyond then
    (true, if notes ≠ "" then notes ++ ", Boundary extension" else "Boundary extension")
  else (is_cut, notes)

/-- Result of a floor tiling loop. -/
structure FloorRowResult where
  panels : List FloorPanel
  pid : ℕ
  otr : Option LeftoverTracker
  complete : Bool
deriving Repr, DecidableEq

/-- Inner `while current_y < max_y` loop of the `horizontal` branch of
`_generate_standard_floor_panels`. -/
def floor_horiz_inner (bb : BBox) (panel_width cpw cur_x thickness : ℚ) :
    ℕ → ℚ → ℕ → Option LeftoverTracker → FloorRowResult
  | 0, cur_y, pid, otr =>
      if cur_y < bb.max_y then ⟨[], pid, otr, false⟩ else ⟨[], pid, otr, true⟩
  | fuel + 1, cur_y, pid, otr =>
      if cur_y < bb.max_y then
        let ph := min panel_width (bb.max_y - cur_y)
        if 0 < ph ∧ 0 < cpw then
          let s := floor_cut_step otr ph cpw thickness
          let b := floor_boundary_adjust s.is_cut s.cut_notes
            (decide (bb.max_x < cur_x + cpw) || decide (bb.max_y < cur_y + ph))
          let p : FloorPanel :=
            { panel_id := "FP_" ++ pad3 pid
              start_x := cur_x, start_y := cur_y
              end_x := cur_x + cpw, end_y := cur_y + ph
              width := cpw, length := ph
              is_cut := b.1, cut_notes := b.2
              from_leftover := s.from_leftover }
          let rest := floor_horiz_inner bb panel_width cpw cur_x thickness
            fuel (cur_y + ph) (pid + 1) s.otr
          ⟨p :: rest.panels, rest.pid, rest.otr, rest.complete⟩
        else
          floor_horiz_inner bb panel_width cpw cur_x thickness fuel (cur_y + ph) pid otr
      else ⟨[], pid, otr, true⟩

/-- Outer `while current_x < max_x` loop of the `horizontal` branch;
advances by the uncapped `panel_length_actual`. -/
def floor_horiz_outer (bb : BBox) (panel_width pla thickness : ℚ) (innerFuel : ℕ) :
    ℕ → ℚ → ℕ → Option LeftoverTracker → FloorRowResult
  | 0, cur_x, pid, otr =>
      if cur_x < bb.max_x then ⟨[], pid, otr, false⟩ else ⟨[], pid, otr, true⟩
  | fuel + 1, cur_x, pid, otr =>
      if cur_x < bb.max_x then
        let cpw := min pla (bb.max_x - cur_x)
        let row := floor_horiz_inner bb panel_width cpw cur_x thickness
          innerFuel bb.min_y pid otr
        let rest := floor_horiz_outer bb panel_width pla thickness innerFuel
          fuel (cur_x + pla) row.pid row.otr
        ⟨row.panels ++ rest.panels, rest.pid, rest.otr, row.complete && rest.complete⟩
      else ⟨[], pid, otr, true⟩

/-- Inner `while current_x < max_x` loop of the `vertical` branch. -/
def floor_vert_inner (bb : BBox) (panel_width cph cur_y thickness : ℚ) :
    ℕ → ℚ → ℕ → Option LeftoverTracker → FloorRowResult
  | 0, cur_x, pid, otr =>
      if cur_x < bb.max_x then ⟨[], pid, otr, false⟩ else ⟨[], pid, otr, true⟩
  | fuel + 1, cur_x, pid, otr =>
      if cur_x < bb.max_x then
        let pwa := min panel_width (bb.max_x - cur_x)
        if 0 < pwa ∧ 0 < cph then
          let s := floor_cut_step otr pwa cph thickness
          let b := floor_boundary_adjust s.is_cut s.cut_notes
            (decide (bb.max_x < cur_x + pwa) || decide (bb.max_y < cur_y + cph))
          let p : FloorPanel :=
            { panel_id := "FP_" ++ pad3 pid
              start_x := cur_x, start_y := cur_y
              end_x := cur_x + pwa, end_y := cur_y + cph
              width := pwa, length := cph
              is_cut := b.1, cut_notes := b.2
              from_leftover := s.from_leftover }
          let rest := floor_vert_inner bb panel_width cph cur_y thickness
            fuel (cur_x + pwa) (pid + 1) s.otr
          ⟨p :: rest.panels, rest.pid, rest.otr, rest.complete⟩
        else
          floor_vert_inner bb panel_width cph cur_y thickness fuel (cur_x + pwa) pid otr
      else ⟨[], pid, otr, true⟩

/-- Outer `while current_y < max_y` loop of the `vertical` branch; advances
by the *capped* `current_panel_height`. -/
def floor_vert_outer (bb : BBox) (panel_width pla thickness : ℚ) (innerFuel : ℕ) :
    ℕ → ℚ → ℕ → Option LeftoverTracker → FloorRowResult
  | 0, cur_y, pid, otr =>
      if cur_y < bb.max_y then ⟨[], pid, otr, false⟩ else ⟨[], pid, otr, true⟩
  | fuel + 1, cur_y, pid, otr =>
      if cur_y < bb.max_y then
        let cph := min pla (bb.max_y - cur_y)
        let row := floor_vert_inner bb panel_width cph cur_y thickness
          innerFuel bb.min_x pid otr
        let rest := floor_vert_outer bb panel_width pla thickness innerFuel
          fuel (cur_y + cph) row.pid row.otr
        ⟨row.panels ++ rest.panels, rest.pid, rest.otr, row.complete && rest.complete⟩
      else ⟨[], pid, otr, true⟩

/-- `FloorService._generate_standard_floor_panels`.  The `room_points` and
`wall_thickness` parameters are unused by the source body (the bounding box
already excludes walls); an orientation other than `'horizontal'` or
`'vertical'` emits nothing. -/
def generate_standard_floor_panels (bb : BBox) (orientation : String)
    (panel_width : ℚ) (panel_length : PanelLen) (otr : Option LeftoverTracker)
    (floor_thickness : ℚ) : FloorRowResult :=
  if orientation = "horizontal" then
    let pla0 := match panel_length with
      | .auto => bb.max_x - bb.min_x
      | .custom v => v
    let pla := min pla0 (bb.max_x - bb.min_x)
    floor_horiz_outer bb panel_width pla floor_thickness
      (regionFuel bb.min_y bb.max_y panel_width)
      (regionFuel bb.min_x bb.max_x pla)
      bb.min_x 1 otr
  else if orientation = "vertical" then
    let pla0 := match panel_length with
      | .auto => bb.max_y - bb.min_y
      | .custom v => v
    let pla := min pla0 (bb.max_y - bb.min_y)
    floor_vert_outer bb panel_width pla floor_thickness
      (regionFuel bb.min_x bb.max_x panel_width)
      (regionFuel bb.min_y bb.max_y pla)
      bb.min_y 1 otr
  else ⟨[], 1, otr, true⟩

/-- Insert into a sorted duplicate-free list (`sorted(set(...))`). -/
def insertSortedUnique (v : ℚ) : List ℚ → List ℚ
  | [] => [v]
  | x :: xs =>
      if v < x then v :: x :: xs
      else if v = x then x :: xs
      else x :: insertSortedUnique v xs

/-- `sorted(set(coords))` of `create_universal_grid_regions`. -/
def sorted_unique (xs : List ℚ) : List ℚ :=
  xs.foldr insertSortedUnique []

/-- The 1 %-threshold filtering loop: keep a middle coordinate when it is at
least `extent × 0.01` beyond the last kept one. -/
def sig_go (threshold : ℚ) (last_kept : ℚ) : List ℚ → List ℚ
  | [] => []
  | v :: vs =>
      if threshold ≤ v - last_kept then v :: sig_go threshold v vs
      else sig_go threshold last_kept vs

/-- `significant_x` / `significant_y` of `create_universal_grid_regions`:
always keeps the first coordinate, filters the middle ones, and appends the
last element of the input unconditionally. -/
def significant_coords (extent : ℚ) : List ℚ → List ℚ
  | [] => []
  | u0 :: rest =>
      (u0 :: sig_go (extent * 0.01) u0 rest.dropLast) ++ [(u0 :: rest).getLastD u0]

/-- A grid cell dictionary of `create_universal_grid_regions` (no `'type'`
key). -/
structure Cell where
  min_x : ℚ
  max_x : ℚ
  min_y : ℚ
  max_y : ℚ
  width : ℚ
  height : ℚ
deriving Repr, DecidableEq

/-- Adjacent pairs `(l[i], l[i+1])`. -/
def adjacentPairs (l : List ℚ) : List (ℚ × ℚ) :=
  l.zip l.tail

/-- `create_universal_grid_regions` of `test_universal_algorithm.py`: the
universal grid decomposer.  A cell is kept when its center lies inside the
polygon or at least three of its corners do (the `test_points` local of the
source is dead code). -/
def create_universal_grid_regions (points : List Pt) : List Cell :=
  match points with
  | [] => []
  | _ :: _ =>
      let xs := points.map Pt.x
      let ys := points.map Pt.y
      let minX := xs.foldr min (xs.headD 0)
      let maxX := xs.foldr max (xs.headD 0)
      let minY := ys.foldr min (ys.headD 0)
      let maxY := ys.foldr max (ys.headD 0)
      let sigx := significant_coords (maxX - minX) (sorted_unique xs)
      let sigy := significant_coords (maxY - minY) (sorted_unique ys)
      (adjacentPairs sigx).flatMap fun xp =>
        (adjacentPairs sigy).filterMap fun yp =>
          let center_inside :=
            is_point_in_polygon ((xp.1 + xp.2) / 2) ((yp.1 + yp.2) / 2) points
          let corners : List Pt :=
            [⟨xp.1, yp.1⟩, ⟨xp.2, yp.1⟩, ⟨xp.2, yp.2⟩, ⟨xp.1, yp.2⟩]
          let corners_inside :=
            (corners.filter fun c => is_point_in_polygon c.x c.y points).length
          if center_inside || corners_inside ≥ 3 then
            some
              { min_x := xp.1, max_x := xp.2, min_y := yp.1, max_y := yp.2
                width := xp.2 - xp.1, height := yp.2 - yp.1 }
          else none

/-- Modelled from `core/views.py::generate_enhanced_ceiling_plan` (and the
identical pattern in `generate_floor_plan`): with typed inputs the only
request-level rejection the view performs is a missing `project_id` — the
two other early returns (`project_id` not an integer, `custom_panel_length`
not a number) are parse failures that cannot arise for already-typed
values.  No check whatsoever is made on the sign or magnitude of
`panel_width`, `panel_length`, or `custom_panel_length`. -/
def ceiling_view_param_check (project_id : Option ℤ) (_panel_width : ℚ)
    (_panel_length : PanelLen) (_custom_panel_length : Option ℚ) : Option String :=
  match project_id with
  | none => some "project_id is required"
  | some _ => none

/-! ## Helper lemmas -/

/-- Boolean compatibility test unfolded to the three conditions. -/
lemma leftover_matches_iff (w l t : ℚ) (lo : Leftover) :
    leftover_matches w l t lo = true ↔
      (l ≤ lo.length ∧ lo.thickness = t ∧ w ≤ lo.width) := by
  simp [leftover_matches, Bool.and_eq_true, and_assoc]

/-- First-match characterisation of `List.find?`. -/
lemma find?_first_char (p : Leftover → Bool) (L : List Leftover) :
    (∀ lo, L.find? p = some lo →
      p lo = true ∧ ∃ i : ℕ, L[i]? = some lo ∧
        ∀ j, j < i → ∀ b, L[j]? = some b → p b = false) ∧
    (L.find? p = none → ∀ a ∈ L, p a = false) := by
  induction L with
  | nil => simp
  | cons x xs ih =>
      by_cases hx : p x = true
      · constructor
        · intro lo hlo
          rw [List.find?_cons_of_pos _ hx] at hlo
          cases hlo
          exact ⟨hx, 0, by simp, fun j hj => absurd hj (Nat.not_lt_zero j)⟩
        · intro hnone
          rw [List.find?_cons_of_pos _ hx] at hnone
          cases hnone
      · have hx' : p x = false := by
          cases h : p x
          · rfl
          · exact absurd h hx
        constructor
        · intro lo hlo
          rw [List.find?_cons_of_neg _ hx] at hlo
          obtain ⟨hp, i, hi, hfirst⟩ := ih.1 lo hlo
          refine ⟨hp, i + 1, by simpa using hi, ?_⟩
          intro j hj b hb
          cases j with
          | zero =>
              simp only [List.getElem?_cons_zero, Option.some.injEq] at hb
              subst hb
              exact hx'
          | succ k =>
              simp only [List.getElem?_cons_succ] at hb
              exact hfirst k (Nat.lt_of_succ_lt_succ hj) b hb
        · intro hnone a ha
          rw [List.find?_cons_of_neg _ hx] at hnone
          rcases List.mem_cons.mp ha with rfl | ha'
          · exact hx'
          · exact ih.2 hnone a ha'

/-- Membership after `replaceFirst`: every element is the replacement or an
original element. -/
lemma mem_replaceFirst {x a b : Leftover} :
    ∀ {L : List Leftover}, x ∈ replaceFirst L a b → x = b ∨ x ∈ L := by
  intro L
  induction L with
  | nil => intro h; simp [replaceFirst] at h
  | cons y ys ih =>
      intro h
      simp only [replaceFirst] at h
      split at h
      · rcases List.mem_cons.mp h with rfl | hx
        · exact Or.inl rfl
        · exact Or.inr (List.mem_cons_of_mem _ hx)
      · rcases List.mem_cons.mp h with rfl | hx
        · exact Or.inr (List.mem_cons_self _ _)
        · rcases ih hx with h' | h'
          · exact Or.inl h'
          · exact Or.inr (List.mem_cons_of_mem _ h')

/-- Membership after `eraseFirst` implies original membership. -/
lemma mem_eraseFirst {x a : Leftover} :
    ∀ {L : List Leftover}, x ∈ eraseFirst L a → x ∈ L := by
  intro L
  induction L with
  | nil => intro h; simp [eraseFirst] at h
  | cons y ys ih =>
      intro h
      simp only [eraseFirst] at h
      split at h
      · exact List.mem_cons_of_mem _ h
      · rcases List.mem_cons.mp h with rfl | hx
        · exact List.mem_cons_self _ _
        · exact List.mem_cons_of_mem _ (ih hx)

/-- With a tracker present and a genuine cut, the floor leftover step and
the ceiling leftover step are the same computation (the ceiling's extra
`max_panel_width` parameter only matters in the tracker-less fallback). -/
lemma floor_cut_step_eq_ceil (tr : LeftoverTracker) (cross stripe th mpw : ℚ)
    (h : cross < MAX_PANEL_WIDTH) :
    floor_cut_step (some tr) cross stripe th =
      ceil_cut_step (some tr) cross stripe th mpw := by
  simp only [floor_cut_step, ceil_cut_step, if_pos h]

/-! ## C7 -/

/-- C7: for every inventory state and request,
`find_compatible_leftover(needed_width, needed_length, needed_thickness)`
returns the first stored leftover, in insertion order, with
`length ≥ needed_length`, exactly equal `thickness` and
`width_remaining ≥ needed_width`, and returns nothing when no stored
leftover satisfies all three conditions. -/
theorem find_compatible_first_fit (tr : LeftoverTracker) (w l t : ℚ) :
    match find_compatible_leftover tr w l t with
    | some lo =>
        (l ≤ lo.length ∧ lo.thickness = t ∧ w ≤ lo.width) ∧
        ∃ i : ℕ, tr.leftovers[i]? = some lo ∧
          ∀ j, j < i → ∀ b, tr.leftovers[j]? = some b →
            ¬(l ≤ b.length ∧ b.thickness = t ∧ w ≤ b.width)
    | none =>
        ∀ lo ∈ tr.leftovers, ¬(l ≤ lo.length ∧ lo.thickness = t ∧ w ≤ lo.width) := by
  have hchar := find?_first_char (leftover_matches w l t) tr.leftovers
  cases hfind : find_compatible_leftover tr w l t with
  | some lo =>
      obtain ⟨hp, i, hi, hfirst⟩ := hchar.1 lo hfind
      refine ⟨(leftover_matches_iff w l t lo).mp hp, i, hi, ?_⟩
      intro j hj b hb hcontra
      have := hfirst j hj b hb
      rw [(by simp : (leftover_matches w l t b = false) ↔ ¬(leftover_matches w l t b = true))] at this
      exact this ((leftover_matches_iff w l t b).mpr hcontra)
  | none =>
      intro lo hlo hcontra
      have := hchar.2 hfind lo hlo
      rw [(by simp : (leftover_matches w l t lo = false) ↔ ¬(leftover_matches w l t lo = true))] at this
      exact this ((leftover_matches_iff w l t lo).mpr hcontra)

/-- C7 witness: on a concrete inventory whose first entry is too narrow and
whose second entry qualifies, the theorem instantiates and the scan indeed
returns the second entry. -/
theorem find_compatible_first_fit_witness :
    (match find_compatible_leftover
        ⟨[⟨"a", 3000, 20, 200, 0⟩, ⟨"b", 3000, 20, 800, 0⟩], ⟨2, 0, 0, 0⟩, 0⟩
        350 1500 20 with
      | some lo =>
          ((1500 : ℚ) ≤ lo.length ∧ lo.thickness = 20 ∧ (350 : ℚ) ≤ lo.width) ∧
          ∃ i : ℕ,
            ([⟨"a", 3000, 20, 200, 0⟩, ⟨"b", 3000, 20, 800, 0⟩] : List Leftover)[i]? = some lo ∧
            ∀ j, j < i → ∀ b,
              ([⟨"a", 3000, 20, 200, 0⟩, ⟨"b", 3000, 20, 800, 0⟩] : List Leftover)[j]? = some b →
              ¬((1500 : ℚ) ≤ b.length ∧ b.thickness = 20 ∧ (350 : ℚ) ≤ b.width)
      | none =>
          ∀ lo ∈ ([⟨"a", 3000, 20, 200, 0⟩, ⟨"b", 3000, 20, 800, 0⟩] : List Leftover),
            ¬((1500 : ℚ) ≤ lo.length ∧ lo.thickness = 20 ∧ (350 : ℚ) ≤ lo.width)) :=
  find_compatible_first_fit
    ⟨[⟨"a", 3000, 20, 200, 0⟩, ⟨"b", 3000, 20, 800, 0⟩], ⟨2, 0, 0, 0⟩, 0⟩ 350 1500 20

/-! ## C8 -/

/-- C8: every stored leftover keeps `width_remaining > 0` across the two
mutating operations — `add_leftover` refuses a non-positive
`width_remaining` (tracker unchanged), and `use_leftover` decrements the
consumed entry's width, removes it when the remainder is non-positive, and
bumps `leftovers_reused` and `full_panels_saved` in either case. -/
theorem leftover_width_invariant (tr : LeftoverTracker) (L th w used : ℚ)
    (lo : Leftover) (hinv : ∀ x ∈ tr.leftovers, 0 < x.width) :
    (∀ x ∈ (add_leftover tr L th w).leftovers, 0 < x.width) ∧
    (w ≤ 0 → add_leftover tr L th w = tr) ∧
    (∀ x ∈ (use_leftover tr lo used).leftovers, 0 < x.width) ∧
    (lo.width - used ≤ 0 →
      (use_leftover tr lo used).leftovers = eraseFirst tr.leftovers lo) ∧
    (0 < lo.width - used →
      (use_leftover tr lo used).leftovers =
        replaceFirst tr.leftovers lo { lo with width := lo.width - used }) ∧
    (use_leftover tr lo used).stats.leftovers_reused = tr.stats.leftovers_reused + 1 ∧
    (use_leftover tr lo used).stats.full_panels_saved = tr.stats.full_panels_saved + 1 := by
  refine ⟨?_, ?_, ?_, ?_, ?_, rfl, rfl⟩
  · intro x hx
    unfold add_leftover at hx
    split at hx
    · rename_i hwpos
      simp only [List.mem_append, List.mem_singleton] at hx
      rcases hx with hx | rfl
      · exact hinv x hx
      · exact hwpos
    · exact hinv x hx
  · intro hw
    unfold add_leftover
    rw [if_neg (by exact not_lt.mpr hw)]
  · intro x hx
    unfold use_leftover at hx
    simp only at hx
    split at hx
    · rename_i hrem
      rcases mem_replaceFirst hx with rfl | hx'
      · exact hrem
      · exact hinv x hx'
    · exact hinv x (mem_eraseFirst hx)
  · intro hrem
    unfold use_leftover
    simp only
    rw [if_neg (by exact not_lt.mpr hrem)]
  · intro hrem
    unfold use_leftover
    simp only
    rw [if_pos hrem]

/-- C8 witness at a concrete tracker: adding a leftover of width 750 keeps
the invariant, adding width −5 is refused, and consuming 300 of a 400-wide
leftover removes nothing while bumping both counters. -/
theorem leftover_width_invariant_witness :
    (∀ x ∈ (add_leftover ⟨[⟨"a", 3000, 20, 400, 0⟩], ⟨1, 0, 0, 1200000⟩, 0⟩
        3000 20 (-5)).leftovers, 0 < x.width) ∧
    ((-5 : ℚ) ≤ 0 → add_leftover ⟨[⟨"a", 3000, 20, 400, 0⟩], ⟨1, 0, 0, 1200000⟩, 0⟩
        3000 20 (-5) = ⟨[⟨"a", 3000, 20, 400, 0⟩], ⟨1, 0, 0, 1200000⟩, 0⟩) ∧
    (∀ x ∈ (use_leftover ⟨[⟨"a", 3000, 20, 400, 0⟩], ⟨1, 0, 0, 1200000⟩, 0⟩
        ⟨"a", 3000, 20, 400, 0⟩ 300).leftovers, 0 < x.width) ∧
    ((⟨"a", 3000, 20, 400, 0⟩ : Leftover).width - 300 ≤ 0 →
      (use_leftover ⟨[⟨"a", 3000, 20, 400, 0⟩], ⟨1, 0, 0, 1200000⟩, 0⟩
        ⟨"a", 3000, 20, 400, 0⟩ 300).leftovers =
        eraseFirst (LeftoverTracker.leftovers
          ⟨[⟨"a", 3000, 20, 400, 0⟩], ⟨1, 0, 0, 1200000⟩, 0⟩) ⟨"a", 3000, 20, 400, 0⟩) ∧
    (0 < (⟨"a", 3000, 20, 400, 0⟩ : Leftover).width - 300 →
      (use_leftover ⟨[⟨"a", 3000, 20, 400, 0⟩], ⟨1, 0, 0, 1200000⟩, 0⟩
        ⟨"a", 3000, 20, 400, 0⟩ 300).leftovers =
        replaceFirst (LeftoverTracker.leftovers
          ⟨[⟨"a", 3000, 20, 400, 0⟩], ⟨1, 0, 0, 1200000⟩, 0⟩) ⟨"a", 3000, 20, 400, 0⟩
          { (⟨"a", 3000, 20, 400, 0⟩ : Leftover) with
              width := (⟨"a", 3000, 20, 400, 0⟩ : Leftover).width - 300 }) ∧
    (use_leftover ⟨[⟨"a", 3000, 20, 400, 0⟩], ⟨1, 0, 0, 1200000⟩, 0⟩
      ⟨"a", 3000, 20, 400, 0⟩ 300).stats.leftovers_reused =
      (TrackerStats.leftovers_reused ⟨1, 0, 0, 1200000⟩) + 1 ∧
    (use_leftover ⟨[⟨"a", 3000, 20, 400, 0⟩], ⟨1, 0, 0, 1200000⟩, 0⟩
      ⟨"a", 3000, 20, 400, 0⟩ 300).stats.full_panels_saved =
      (TrackerStats.full_panels_saved ⟨1, 0, 0, 1200000⟩) + 1 :=
  leftover_width_invariant ⟨[⟨"a", 3000, 20, 400, 0⟩], ⟨1, 0, 0, 1200000⟩, 0⟩
    3000 20 (-5) 300 ⟨"a", 3000, 20, 400, 0⟩ (by decide)

/-! ## C3 -/

/-- C3: whenever the stripe tiler (ceiling or floor variant) emits a cut
panel — cross-stripe dimension below the stock width — and no compatible
leftover exists, it appends exactly one new leftover with
`length = stripe-direction dimension`, `width_remaining = MAX_PANEL_WIDTH −
cross dimension` and the panel thickness; when a compatible leftover is
found, it is consumed (width reduced or entry removed) and no new leftover
is added for that panel. -/
theorem stripe_cut_leftover_policy (tr : LeftoverTracker) (cross stripe th mpw : ℚ)
    (hcross : cross < MAX_PANEL_WIDTH) :
    (find_compatible_leftover tr cross stripe th = none →
      ∃ nl : Leftover, nl.length = stripe ∧ nl.thickness = th ∧
        nl.width = MAX_PANEL_WIDTH - cross ∧
        (ceil_cut_step (some tr) cross stripe th mpw).otr =
          some { leftovers := tr.leftovers ++ [nl]
                 stats := { tr.stats with
                   leftovers_created := tr.stats.leftovers_created + 1
                   total_leftover_area :=
                     tr.stats.total_leftover_area + stripe * (MAX_PANEL_WIDTH - cross) }
                 now := tr.now } ∧
        floor_cut_step (some tr) cross stripe th =
          ceil_cut_step (some tr) cross stripe th mpw) ∧
    (∀ lo, find_compatible_leftover tr cross stripe th = some lo →
      (ceil_cut_step (some tr) cross stripe th mpw).otr = some (use_leftover tr lo cross) ∧
      (use_leftover tr lo cross).stats.leftovers_created = tr.stats.leftovers_created ∧
      ((use_leftover tr lo cross).leftovers =
          replaceFirst tr.leftovers lo { lo with width := lo.width - cross } ∨
        (use_leftover tr lo cross).leftovers = eraseFirst tr.leftovers lo) ∧
      floor_cut_step (some tr) cross stripe th =
        ceil_cut_step (some tr) cross stripe th mpw) := by
  have hw : 0 < MAX_PANEL_WIDTH - cross := by
    have := hcross
    unfold MAX_PANEL_WIDTH at *
    linarith
  constructor
  · intro hnone
    refine ⟨{ id := toString ⌊tr.now * 1000⌋ ++ "_" ++ toString tr.leftovers.length
              length := stripe, thickness := th
              width := MAX_PANEL_WIDTH - cross, created_at := tr.now },
            rfl, rfl, rfl, ?_, floor_cut_step_eq_ceil tr cross stripe th mpw hcross⟩
    simp only [ceil_cut_step, if_pos hcross, hnone, add_leftover, if_pos hw]
  · intro lo hlo
    refine ⟨?_, rfl, ?_, floor_cut_step_eq_ceil tr cross stripe th mpw hcross⟩
    · simp only [ceil_cut_step, if_pos hcross, hlo]
    · unfold use_leftover
      simp only
      split
      · exact Or.inl rfl
      · exact Or.inr rfl

/-- C3 witness: a concrete cut of 400 mm against an empty inventory creates
the leftover `{length 3000, width 750, thickness 20}`; against an inventory
holding that leftover, a 700 mm cut consumes it and creates nothing. -/
theorem stripe_cut_leftover_policy_witness :
    (find_compatible_leftover (LeftoverTracker.mk0 0) 400 3000 20 = none →
      ∃ nl : Leftover, nl.length = 3000 ∧ nl.thickness = 20 ∧
        nl.width = MAX_PANEL_WIDTH - 400 ∧
        (ceil_cut_step (some (LeftoverTracker.mk0 0)) 400 3000 20 1150).otr =
          some { leftovers := (LeftoverTracker.mk0 0).leftovers ++ [nl]
                 stats := { (LeftoverTracker.mk0 0).stats with
                   leftovers_created := (LeftoverTracker.mk0 0).stats.leftovers_created + 1
                   total_leftover_area :=
                     (LeftoverTracker.mk0 0).stats.total_leftover_area +
                       3000 * (MAX_PANEL_WIDTH - 400) }
                 now := (LeftoverTracker.mk0 0).now } ∧
        floor_cut_step (some (LeftoverTracker.mk0 0)) 400 3000 20 =
          ceil_cut_step (some (LeftoverTracker.mk0 0)) 400 3000 20 1150) ∧
    (∀ lo, find_compatible_leftover (LeftoverTracker.mk0 0) 400 3000 20 = some lo →
      (ceil_cut_step (some (LeftoverTracker.mk0 0)) 400 3000 20 1150).otr =
        some (use_leftover (LeftoverTracker.mk0 0) lo 400) ∧
      (use_leftover (LeftoverTracker.mk0 0) lo 400).stats.leftovers_created =
        (LeftoverTracker.mk0 0).stats.leftovers_created ∧
      ((use_leftover (LeftoverTracker.mk0 0) lo 400).leftovers =
          replaceFirst (LeftoverTracker.mk0 0).leftovers lo
            { lo with width := lo.width - 400 } ∨
        (use_leftover (LeftoverTracker.mk0 0) lo 400).leftovers =
          eraseFirst (LeftoverTracker.mk0 0).leftovers lo) ∧
      floor_cut_step (some (LeftoverTracker.mk0 0)) 400 3000 20 =
        ceil_cut_step (some (LeftoverTracker.mk0 0)) 400 3000 20 1150) :=
  stripe_cut_leftover_policy (LeftoverTracker.mk0 0) 400 3000 20 1150 (by decide)

/-! ## C2 -/

/-- C2 (code-bug evidence): in the ceiling generator a leftover reuse is
counted (`leftovers_reused = 1`) and noted in `cut_notes`, yet **no**
emitted panel carries a `from_leftover` key at all — the local
`from_leftover` variable of `_generate_panels_for_region` is dropped when
the panel dictionary is built, so the claimed equality between
`leftovers_reused` and the number of panels marked `from_leftover = true`
fails (1 ≠ 0).  Region 1500 × 3000, vertical orientation, custom length
1500: two 350 mm cuts, the second satisfied from the first one's
leftover. -/
theorem ceiling_from_leftover_never_recorded :
    (((generate_panels_for_region ⟨0, 1500, 0, 3000, 1500, 3000, "rectangular"⟩
        "vertical" 1150 1 (PanelLen.custom 1500)
        (some (LeftoverTracker.mk0 0)) 20).otr.map
      fun tr => tr.stats.leftovers_reused) = some 1) ∧
    ((generate_panels_for_region ⟨0, 1500, 0, 3000, 1500, 3000, "rectangular"⟩
        "vertical" 1150 1 (PanelLen.custom 1500)
        (some (LeftoverTracker.mk0 0)) 20).panels.filter
      fun p => p.from_leftover = some true).length = 0 ∧
    ((generate_panels_for_region ⟨0, 1500, 0, 3000, 1500, 3000, "rectangular"⟩
        "vertical" 1150 1 (PanelLen.custom 1500)
        (some (LeftoverTracker.mk0 0)) 20).panels.filter
      fun p => p.cut_notes = "From leftover 0_0").length = 1 ∧
    ∀ p ∈ (generate_panels_for_region ⟨0, 1500, 0, 3000, 1500, 3000, "rectangular"⟩
        "vertical" 1150 1 (PanelLen.custom 1500)
        (some (LeftoverTracker.mk0 0)) 20).panels, p.from_leftover = none := by
  decide

/-! ## C4 -/

/-- The S1 room of the specification: `[(0,0),(5000,0),(5000,3000),(0,3000)]`. -/
def s1_points : List Pt := [⟨0, 0⟩, ⟨5000, 0⟩, ⟨5000, 3000⟩, ⟨0, 3000⟩]

/-- S1 as a `room_info` dictionary. -/
def s1_room : RoomInfo :=
  { id := 1, name := "S1", points := s1_points
    area := calculate_room_area s1_points
    center := calculate_room_center s1_points
    bounding_box := calculate_room_bounding_box s1_points }

/-- The S1 generation run: vertical orientation, auto length, width 1150,
fresh inventory. -/
def s1_run : List CeilPanel × Option LeftoverTracker :=
  generate_panels_with_orientation s1_room "vertical" 1150 PanelLen.auto
    (some (LeftoverTracker.mk0 0)) 20

/-- C4 counterexample: the claim asserts the last S1 panel has
`from_leftover = false`, but the ceiling generator emits no `from_leftover`
key at all (the field is absent, not `false`). -/
theorem s1_last_panel_from_leftover_counterexample :
    ¬ ((s1_run.1.getLast?).map (fun p => p.from_leftover) = some (some false)) := by
  decide

/-- C4 amended: S1 emits exactly 5 panels of length 3000 with widths
1150, 1150, 1150, 1150, 400 in that order; only the last is `is_cut = true`
and no panel carries a `from_leftover` marking; exactly one leftover
`{length 3000, width 750}` is created; and the evaluator's waste percentage
for the room is 15. -/
theorem s1_generation_amended :
    (s1_run.1.map fun p => (p.width, p.length, p.is_cut, p.from_leftover)) =
      [(1150, 3000, false, none), (1150, 3000, false, none), (1150, 3000, false, none),
       (1150, 3000, false, none), (400, 3000, true, none)] ∧
    (s1_run.2.map fun tr =>
      (tr.leftovers.map fun l => (l.length, l.width), tr.stats.leftovers_created)) =
      some ([(3000, 750)], 1) ∧
    (evaluate_group_fixed_orientation [s1_room] "vertical" 1150
      PanelLen.auto).leftover_waste_percentage = 15 := by
  decide

/-! ## C5 -/

/-- The S6 L-shaped polygon
`[(0,0),(2000,0),(2000,1000),(1000,1000),(1000,2000),(0,2000)]`. -/
def s6_points : List Pt :=
  [⟨0, 0⟩, ⟨2000, 0⟩, ⟨2000, 1000⟩, ⟨1000, 1000⟩, ⟨1000, 2000⟩, ⟨0, 2000⟩]

/-- C5 counterexample: the universal-grid decomposer does **not** return
the two claimed cells `(0,0,2000,1000)` and `(0,1000,1000,2000)` for the S6
L-shape (and the in-service L-split decomposer returns different cells in
both orientations as well). -/
theorem universal_grid_s6_counterexample :
    ¬ (((create_universal_grid_regions s6_points).map
        fun c => (c.min_x, c.min_y, c.max_x, c.max_y)) =
      [(0, 0, 2000, 1000), (0, 1000, 1000, 2000)]) ∧
    ¬ (((split_l_shaped_room s6_points "horizontal").map
        fun r => (r.min_x, r.min_y, r.max_x, r.max_y)) =
      [(0, 0, 2000, 1000), (0, 1000, 1000, 2000)]) ∧
    ¬ (((split_l_shaped_room s6_points "vertical").map
        fun r => (r.min_x, r.min_y, r.max_x, r.max_y)) =
      [(0, 0, 2000, 1000), (0, 1000, 1000, 2000)]) := by
  decide

/-- C5 amended: for the S6 L-shape the universal-grid decomposer returns
*four* cells — the three interior grid cells plus the exterior cell
`(1000,1000,2000,2000)`, kept because three of its corners are polygon
vertices that the ray-caster counts as inside — so the total cell area is
4 000 000 mm², exceeding the polygon area 3 000 000 mm² by a third (the
5 % coverage tolerance is violated, and the cell union does not lie inside
the polygon: the kept exterior cell's center lies outside). -/
theorem universal_grid_s6_amended :
    ((create_universal_grid_regions s6_points).map
      fun c => (c.min_x, c.min_y, c.max_x, c.max_y)) =
      [(0, 0, 1000, 1000), (0, 1000, 1000, 2000),
       (1000, 0, 2000, 1000), (1000, 1000, 2000, 2000)] ∧
    ((create_universal_grid_regions s6_points).map fun c => c.width * c.height).sum
      = 4000000 ∧
    calculate_polygon_area s6_points = 3000000 ∧
    is_point_in_polygon 1500 1500 s6_points = false := by
  decide

/-! ## Strategy-selection lemmas -/

/-- Both branches of `_evaluate_strategy` label the result with the given
strategy name. -/
lemma evaluate_strategy_name (ha : HeightAnalysis) (ot sn : String) (pw : ℚ)
    (pl : PanelLen) : (evaluate_strategy ha ot sn pw pl).strategy_name = sn := by
  unfold evaluate_strategy
  split <;> rfl

lemma mem_insertByWaste {t s : Strategy} :
    ∀ {l : List Strategy}, t ∈ insertByWaste s l ↔ t = s ∨ t ∈ l := by
  intro l
  induction l with
  | nil => simp [insertByWaste]
  | cons x xs ih =>
      simp only [insertByWaste]
      split
      · rw [List.mem_cons, ih, List.mem_cons]
        tauto
      · rw [List.mem_cons, List.mem_cons]

lemma mem_sortByWaste {t : Strategy} :
    ∀ {l : List Strategy}, t ∈ sortByWaste l ↔ t ∈ l := by
  intro l
  induction l with
  | nil => simp [sortByWaste]
  | cons x xs ih =>
      simp only [sortByWaste]
      rw [mem_insertByWaste, ih, List.mem_cons]

lemma insertByWaste_ne_nil (s : Strategy) (l : List Strategy) :
    insertByWaste s l ≠ [] := by
  cases l with
  | nil => simp [insertByWaste]
  | cons x xs =>
      simp only [insertByWaste]
      split <;> simp

/-- The first candidate attaining the minimal waste percentage, in list
order (the selector the amended C1 describes). -/
def first_min_by_waste : List Strategy → Option Strategy
  | [] => none
  | s :: ss =>
      match first_min_by_waste ss with
      | none => some s
      | some t =>
          if s.total_waste_percentage ≤ t.total_waste_percentage then some s else some t

lemma insertByWaste_head (s : Strategy) (l : List Strategy) :
    (insertByWaste s l).head? =
      some (match l.head? with
        | none => s
        | some t =>
            if t.total_waste_percentage < s.total_waste_percentage then t else s) := by
  cases l with
  | nil => rfl
  | cons x xs =>
      simp only [insertByWaste, List.head?_cons]
      split
      · rfl
      · rfl

/-- The head of the stable sort is the first minimal-waste candidate. -/
lemma sortByWaste_head (l : List Strategy) :
    (sortByWaste l).head? = first_min_by_waste l := by
  induction l with
  | nil => rfl
  | cons s ss ih =>
      simp only [sortByWaste, first_min_by_waste, insertByWaste_head, ih]
      cases h : first_min_by_waste ss with
      | none => rfl
      | some t =>
          simp only
          by_cases hlt : t.total_waste_percentage < s.total_waste_percentage
          · rw [if_pos hlt, if_neg (by exact not_le.mpr hlt)]
          · rw [if_neg hlt, if_pos (not_lt.mp hlt)]

lemma first_min_by_waste_eq_none {l : List Strategy} :
    first_min_by_waste l = none ↔ l = [] := by
  cases l with
  | nil => simp [first_min_by_waste]
  | cons s ss =>
      simp only [first_min_by_waste]
      constructor
      · intro h
        cases hm : first_min_by_waste ss with
        | none => rw [hm] at h; cases h
        | some t =>
            rw [hm] at h
            dsimp only at h
            split at h <;> cases h
      · intro h
        cases h

/-- The first minimal candidate has minimal waste among all candidates. -/
lemma first_min_by_waste_le :
    ∀ (l : List Strategy) (t : Strategy), first_min_by_waste l = some t →
      ∀ s ∈ l, t.total_waste_percentage ≤ s.total_waste_percentage := by
  intro l
  induction l with
  | nil => intro t ht; cases ht
  | cons x xs ih =>
      intro t ht s hs
      simp only [first_min_by_waste] at ht
      cases hm : first_min_by_waste xs with
      | none =>
          rw [hm] at ht
          cases ht
          have hxs : xs = [] := first_min_by_waste_eq_none.mp hm
          subst hxs
          rcases List.mem_cons.mp hs with rfl | h
          · exact le_refl _
          · cases h
      | some u =>
          rw [hm] at ht
          dsimp only at ht
          rcases List.mem_cons.mp hs with rfl | hmem
          · split at ht
            · cases ht; exact le_refl _
            · rename_i hle
              cases ht
              exact le_of_lt (not_le.mp hle)
          · have hu := ih u hm s hmem
            split at ht
            · rename_i hle
              cases ht
              exact le_trans hle hu
            · cases ht
              exact hu

/-! ## C6 -/

/-- C6 counterexample: two same-height 1 m² rooms at opposite corners of a
10 m square give area efficiency 1/50 — far below 0.7, `can_merge = false`
— yet the strategy evaluator still produces (here even recommends) a
`project_merged` candidate, because the only gate in the source is
`all_same_height`. -/
theorem project_merged_low_efficiency_counterexample :
    ((analyze_project_heights 3000
        [{ id := 1, room_name := "B1"
           room_points := [⟨0, 0⟩, ⟨1000, 0⟩, ⟨1000, 1000⟩, ⟨0, 1000⟩], height := none },
         { id := 2, room_name := "B2"
           room_points := [⟨9000, 9000⟩, ⟨10000, 9000⟩, ⟨10000, 10000⟩, ⟨9000, 10000⟩]
           height := none }]).map fun ha =>
      (ha.all_same_height, ha.height_groups.map fun hg =>
        (hg.2.area_efficiency, hg.2.can_merge))) = some (true, [(1/50, false)]) ∧
    ((analyze_orientation_strategies 3000
        [{ id := 1, room_name := "B1"
           room_points := [⟨0, 0⟩, ⟨1000, 0⟩, ⟨1000, 1000⟩, ⟨0, 1000⟩], height := none },
         { id := 2, room_name := "B2"
           room_points := [⟨9000, 9000⟩, ⟨10000, 9000⟩, ⟨10000, 10000⟩, ⟨9000, 10000⟩]
           height := none }] 1150 PanelLen.auto).map fun r =>
      r.strategies.map fun s => s.strategy_name) =
      some ["project_merged", "all_vertical", "all_horizontal", "room_optimal"] ∧
    ¬ ((7 : ℚ)/10 ≤ 1/50) := by
  decide

/-- C6 amended: the strategy evaluator produces a `project_merged`
candidate exactly when the height analysis reports a single height group
(`all_same_height`), independently of the merged-bbox area efficiency; the
strictly-greater-than-0.7 efficiency test only feeds the height analysis's
`can_merge` flag. -/
theorem project_merged_candidate_iff (project_height pw : ℚ) (pl : PanelLen)
    (rooms : List RoomIn) (ha : HeightAnalysis) (res : OrientationAnalysis)
    (hha : analyze_project_heights project_height rooms = some ha)
    (hres : analyze_orientation_strategies project_height rooms pw pl = some res) :
    ("project_merged" ∈ res.strategies.map Strategy.strategy_name ↔
      ha.all_same_height = true) ∧
    ∀ hg ∈ ha.height_groups, hg.2.can_merge = true →
      (7 : ℚ)/10 < hg.2.area_efficiency := by
  constructor
  · -- the candidate's presence is decided by `all_same_height` alone
    have hnames : res.strategies.map Strategy.strategy_name =
        (sortByWaste (build_strategies ha pw pl)).map Strategy.strategy_name := by
      unfold analyze_orientation_strategies at hres
      rw [hha] at hres
      simp only at hres
      cases hs : sortByWaste (build_strategies ha pw pl) with
      | nil => rw [hs] at hres; cases hres
      | cons best rest =>
          rw [hs] at hres
          simp only [Option.some.injEq] at hres
          subst hres
          simp only [List.map_cons, List.map_map]
          rfl
    rw [hnames]
    have hmem : ("project_merged" ∈
        (sortByWaste (build_strategies ha pw pl)).map Strategy.strategy_name) ↔
        ("project_merged" ∈ (build_strategies ha pw pl).map Strategy.strategy_name) := by
      simp only [List.mem_map]
      constructor
      · rintro ⟨s, hs, hn⟩
        exact ⟨s, mem_sortByWaste.mp hs, hn⟩
      · rintro ⟨s, hs, hn⟩
        exact ⟨s, mem_sortByWaste.mpr hs, hn⟩
    rw [hmem]
    cases hsame : ha.all_same_height with
    | true =>
        simp only [build_strategies, hsame, if_true, List.map_append, List.map_cons,
          evaluate_strategy_name, List.map_nil]
        simp [evaluate_strategy_name]
    | false =>
        simp only [build_strategies, hsame, if_false, List.append_nil, List.map_cons,
          evaluate_strategy_name, List.map_nil]
        simp [evaluate_strategy_name]
  · -- `can_merge` forces efficiency strictly above 0.7
    intro hg hmem hcm
    unfold analyze_project_heights at hha
    split at hha
    · cases hha
    · simp only [Option.some.injEq] at hha
      subst hha
      simp only [List.mem_map] at hmem
      obtain ⟨raw, _hraw, hEq⟩ := hmem
      have hcm' : can_merge_rooms_for_ceiling raw.2
          (calculate_project_bounding_box ((raw.2.map RoomInfo.points).flatten)) = true ∧
          hg.2.area_efficiency = group_area_efficiency raw.2
            (calculate_project_bounding_box ((raw.2.map RoomInfo.points).flatten)) := by
        constructor
        · rw [← hEq] at hcm
          exact hcm
        · rw [← hEq]
      obtain ⟨hcm2, heff⟩ := hcm'
      unfold can_merge_rooms_for_ceiling at hcm2
      split at hcm2
      · cases hcm2
      · rw [heff]
        unfold group_area_efficiency
        simp only [decide_eq_true_eq] at hcm2
        have : (0.7 : ℚ) = 7/10 := by norm_num
        rw [this] at hcm2
        exact hcm2

/-- C6 amended, witnessed on the two-room low-efficiency project: the
`project_merged` candidate is present because `all_same_height` holds. -/
theorem project_merged_candidate_iff_witness :
    (∃ ha res,
      analyze_project_heights 3000
        [{ id := 1, room_name := "B1"
           room_points := [⟨0, 0⟩, ⟨1000, 0⟩, ⟨1000, 1000⟩, ⟨0, 1000⟩], height := none },
         { id := 2, room_name := "B2"
           room_points := [⟨9000, 9000⟩, ⟨10000, 9000⟩, ⟨10000, 10000⟩, ⟨9000, 10000⟩]
           height := none }] = some ha ∧
      analyze_orientation_strategies 3000
        [{ id := 1, room_name := "B1"
           room_points := [⟨0, 0⟩, ⟨1000, 0⟩, ⟨1000, 1000⟩, ⟨0, 1000⟩], height := none },
         { id := 2, room_name := "B2"
           room_points := [⟨9000, 9000⟩, ⟨10000, 9000⟩, ⟨10000, 10000⟩, ⟨9000, 10000⟩]
           height := none }] 1150 PanelLen.auto = some res ∧
      ("project_merged" ∈ res.strategies.map Strategy.strategy_name ↔
        ha.all_same_height = true) ∧
      ∀ hg ∈ ha.height_groups, hg.2.can_merge = true →
        (7 : ℚ)/10 < hg.2.area_efficiency) := by
  have h1 : (analyze_project_heights 3000
      [{ id := 1, room_name := "B1"
         room_points := [⟨0, 0⟩, ⟨1000, 0⟩, ⟨1000, 1000⟩, ⟨0, 1000⟩], height := none },
       { id := 2, room_name := "B2"
         room_points := [⟨9000, 9000⟩, ⟨10000, 9000⟩, ⟨10000, 10000⟩, ⟨9000, 10000⟩]
         height := none }]).isSome = true := by decide
  have h2 : (analyze_orientation_strategies 3000
      [{ id := 1, room_name := "B1"
         room_points := [⟨0, 0⟩, ⟨1000, 0⟩, ⟨1000, 1000⟩, ⟨0, 1000⟩], height := none },
       { id := 2, room_name := "B2"
         room_points := [⟨9000, 9000⟩, ⟨10000, 9000⟩, ⟨10000, 10000⟩, ⟨9000, 10000⟩]
         height := none }] 1150 PanelLen.auto).isSome = true := by decide
  obtain ⟨ha, hha⟩ := Option.isSome_iff_exists.mp h1
  obtain ⟨res, hres⟩ := Option.isSome_iff_exists.mp h2
  exact ⟨ha, res, hha, hres,
    project_merged_candidate_iff 3000 1150 PanelLen.auto _ ha res hha hres⟩

/-! ## C1 -/

/-- C1 counterexample: for a single 2300 × 1150 room every candidate has
waste 0, `all_horizontal` needs only 1 panel against `all_vertical`'s 2 —
the claimed tie-break (fewer panels, then the order all_horizontal,
all_vertical, room_optimal, project_merged) would recommend
`all_horizontal`, but the code's stable sort on waste alone keeps the
evaluation order all_vertical, all_horizontal, room_optimal,
project_merged and recommends `all_vertical`. -/
theorem recommended_tie_break_counterexample :
    ((analyze_orientation_strategies 3000
        [{ id := 1, room_name := "A"
           room_points := [⟨0, 0⟩, ⟨2300, 0⟩, ⟨2300, 1150⟩, ⟨0, 1150⟩], height := none }]
        1150 PanelLen.auto).map fun r =>
      (r.recommended_strategy,
        r.strategies.map fun s =>
          (s.strategy_name, s.total_waste_percentage, s.total_panels))) =
      some ("all_vertical",
        [("all_vertical", 0, 2), ("all_horizontal", 0, 1), ("room_optimal", 0, 2),
         ("project_merged", 0, 2)]) := by
  decide

/-- C1 amended: for every project with at least one room listing,
`analyze_orientation_strategies` recommends the candidate with minimal
`total_waste_percentage`; candidates with equal waste are ordered by their
evaluation order (all_vertical, all_horizontal, room_optimal,
project_merged — the stable sort keeps the earliest), and the panel count
plays no part in the tie-break. -/
theorem recommended_strategy_spec (project_height pw : ℚ) (pl : PanelLen)
    (rooms : List RoomIn) (hne : rooms ≠ []) :
    ∃ ha, analyze_project_heights project_height rooms = some ha ∧
      ((analyze_orientation_strategies project_height rooms pw pl).map
        fun r => r.recommended_strategy) =
        ((first_min_by_waste (build_strategies ha pw pl)).map
          fun s => s.strategy_name) ∧
      ∀ best, first_min_by_waste (build_strategies ha pw pl) = some best →
        ∀ s ∈ build_strategies ha pw pl,
          best.total_waste_percentage ≤ s.total_waste_percentage := by
  have hne' : rooms.isEmpty = false := by
    cases rooms with
    | nil => exact absurd rfl hne
    | cons r rs => rfl
  obtain ⟨ha, hha⟩ : ∃ ha, analyze_project_heights project_height rooms = some ha := by
    unfold analyze_project_heights
    rw [hne']
    exact ⟨_, rfl⟩
  refine ⟨ha, hha, ?_, ?_⟩
  · unfold analyze_orientation_strategies
    rw [hha]
    simp only
    cases hs : sortByWaste (build_strategies ha pw pl) with
    | nil =>
        exfalso
        have hnn : sortByWaste (build_strategies ha pw pl) ≠ [] := by
          simp only [build_strategies, List.cons_append, List.nil_append, sortByWaste]
          exact insertByWaste_ne_nil _ _
        exact hnn hs
    | cons best rest =>
        have hhead := sortByWaste_head (build_strategies ha pw pl)
        rw [hs] at hhead
        simp only [List.head?_cons] at hhead
        rw [← hhead]
        rfl
  · intro best hbest s hs
    exact first_min_by_waste_le _ best hbest s hs

/-- C1 amended, witnessed on the single-room 2300 × 1150 project. -/
theorem recommended_strategy_spec_witness :
    ∃ ha, analyze_project_heights 3000
        [{ id := 1, room_name := "A"
           room_points := [⟨0, 0⟩, ⟨2300, 0⟩, ⟨2300, 1150⟩, ⟨0, 1150⟩], height := none }] =
        some ha ∧
      ((analyze_orientation_strategies 3000
        [{ id := 1, room_name := "A"
           room_points := [⟨0, 0⟩, ⟨2300, 0⟩, ⟨2300, 1150⟩, ⟨0, 1150⟩], height := none }]
        1150 PanelLen.auto).map fun r => r.recommended_strategy) =
        ((first_min_by_waste (build_strategies ha 1150 PanelLen.auto)).map
          fun s => s.strategy_name) ∧
      ∀ best, first_min_by_waste (build_strategies ha 1150 PanelLen.auto) = some best →
        ∀ s ∈ build_strategies ha 1150 PanelLen.auto,
          best.total_waste_percentage ≤ s.total_waste_percentage :=
  recommended_strategy_spec 3000 1150 PanelLen.auto
    [{ id := 1, room_name := "A"
       room_points := [⟨0, 0⟩, ⟨2300, 0⟩, ⟨2300, 1150⟩, ⟨0, 1150⟩], height := none }]
    (by simp)

/-! ## Loop lemmas (stalling, completion, positivity) -/

/-- With a non-positive `max_panel_width` the vertical-branch inner walk
never advances, never emits, and never terminates. -/
lemma ceil_vert_inner_stall (region : Region) (maxW cph cur_y th : ℚ)
    (hw : maxW ≤ 0) :
    ∀ (fuel : ℕ) (cur : ℚ) (n : ℕ) (otr : Option LeftoverTracker),
      cur < region.max_x →
      ceil_vert_inner region maxW cph cur_y th fuel cur n otr = ⟨[], n, otr, false⟩ := by
  intro fuel
  induction fuel with
  | zero =>
      intro cur n otr hcur
      simp only [ceil_vert_inner, if_pos hcur]
  | succ f ih =>
      intro cur n otr hcur
      have hpw : min maxW (region.max_x - cur) ≤ 0 := le_trans (min_le_left _ _) hw
      have hng : ¬ (0 < min maxW (region.max_x - cur) ∧ 0 < cph) := by
        rintro ⟨h1, _⟩
        exact absurd h1 (not_lt.mpr hpw)
      have hnext : cur + min maxW (region.max_x - cur) < region.max_x := by
        have := add_le_add_left hpw cur
        simpa using lt_of_le_of_lt (by linarith : cur + min maxW (region.max_x - cur) ≤ cur) hcur
      simp only [ceil_vert_inner, if_pos hcur, if_neg hng]
      exact ih _ n otr hnext

/-- With a non-positive `max_panel_width` the horizontal-branch inner walk
never advances, never emits, and never terminates. -/
lemma ceil_horiz_inner_stall (region : Region) (maxW cpw cur_x th : ℚ)
    (hw : maxW ≤ 0) :
    ∀ (fuel : ℕ) (cur : ℚ) (n : ℕ) (otr : Option LeftoverTracker),
      cur < region.max_y →
      ceil_horiz_inner region maxW cpw cur_x th fuel cur n otr = ⟨[], n, otr, false⟩ := by
  intro fuel
  induction fuel with
  | zero =>
      intro cur n otr hcur
      simp only [ceil_horiz_inner, if_pos hcur]
  | succ f ih =>
      intro cur n otr hcur
      have hph : min maxW (region.max_y - cur) ≤ 0 := le_trans (min_le_left _ _) hw
      have hng : ¬ (0 < min maxW (region.max_y - cur) ∧ 0 < cpw) := by
        rintro ⟨h1, _⟩
        exact absurd h1 (not_lt.mpr hph)
      have hnext : cur + min maxW (region.max_y - cur) < region.max_y := by
        have : cur + min maxW (region.max_y - cur) ≤ cur := by linarith
        exact lt_of_le_of_lt this hcur
      simp only [ceil_horiz_inner, if_pos hcur, if_neg hng]
      exact ih _ n otr hnext

/-- A row with non-positive height emits nothing and leaves the panel
counter and tracker untouched (the walk itself still advances by the
positive panel width). -/
lemma ceil_vert_inner_noemit (region : Region) (maxW cph cur_y th : ℚ)
    (hc : cph ≤ 0) :
    ∀ (fuel : ℕ) (cur : ℚ) (n : ℕ) (otr : Option LeftoverTracker),
      (ceil_vert_inner region maxW cph cur_y th fuel cur n otr).panels = [] ∧
      (ceil_vert_inner region maxW cph cur_y th fuel cur n otr).pid = n ∧
      (ceil_vert_inner region maxW cph cur_y th fuel cur n otr).otr = otr := by
  intro fuel
  induction fuel with
  | zero =>
      intro cur n otr
      simp only [ceil_vert_inner]
      split <;> exact ⟨rfl, rfl, rfl⟩
  | succ f ih =>
      intro cur n otr
      have hng : ¬ (0 < min maxW (region.max_x - cur) ∧ 0 < cph) := by
        rintro ⟨_, h2⟩
        exact absurd h2 (not_lt.mpr hc)
      simp only [ceil_vert_inner, if_neg hng]
      split
      · exact ih _ n otr
      · exact ⟨rfl, rfl, rfl⟩

/-- A column with non-positive width emits nothing and leaves the panel
counter and tracker untouched. -/
lemma ceil_horiz_inner_noemit (region : Region) (maxW cpw cur_x th : ℚ)
    (hc : cpw ≤ 0) :
    ∀ (fuel : ℕ) (cur : ℚ) (n : ℕ) (otr : Option LeftoverTracker),
      (ceil_horiz_inner region maxW cpw cur_x th fuel cur n otr).panels = [] ∧
      (ceil_horiz_inner region maxW cpw cur_x th fuel cur n otr).pid = n ∧
      (ceil_horiz_inner region maxW cpw cur_x th fuel cur n otr).otr = otr := by
  intro fuel
  induction fuel with
  | zero =>
      intro cur n otr
      simp only [ceil_horiz_inner]
      split <;> exact ⟨rfl, rfl, rfl⟩
  | succ f ih =>
      intro cur n otr
      have hng : ¬ (0 < min maxW (region.max_y - cur) ∧ 0 < cpw) := by
        rintro ⟨_, h2⟩
        exact absurd h2 (not_lt.mpr hc)
      simp only [ceil_horiz_inner, if_neg hng]
      split
      · exact ih _ n otr
      · exact ⟨rfl, rfl, rfl⟩

/-- With a non-positive custom stripe step the vertical-orientation outer
walk never advances: it emits nothing and never terminates. -/
lemma ceil_vert_outer_stall (region : Region) (maxW step th : ℚ)
    (innerFuel : ℕ) (hstep : step ≤ 0) :
    ∀ (fuel : ℕ) (cur : ℚ) (n : ℕ) (otr : Option LeftoverTracker),
      cur < region.max_y →
      (ceil_vert_outer region maxW step th innerFuel fuel cur n otr).panels = [] ∧
      (ceil_vert_outer region maxW step th innerFuel fuel cur n otr).complete = false := by
  intro fuel
  induction fuel with
  | zero =>
      intro cur n otr hcur
      simp only [ceil_vert_outer, if_pos hcur]
      exact ⟨trivial, trivial⟩
  | succ f ih =>
      intro cur n otr hcur
      have hcph : min step (region.max_y - cur) ≤ 0 := le_trans (min_le_left _ _) hstep
      have hrow := ceil_vert_inner_noemit region maxW (min step (region.max_y - cur))
        cur th hcph innerFuel region.min_x n otr
      have hnext : cur + step < region.max_y :=
        lt_of_le_of_lt (by linarith : cur + step ≤ cur) hcur
      have hrest := ih (cur + step)
        (ceil_vert_inner region maxW (min step (region.max_y - cur)) cur th
          innerFuel region.min_x n otr).pid
        (ceil_vert_inner region maxW (min step (region.max_y - cur)) cur th
          innerFuel region.min_x n otr).otr hnext
      simp only [ceil_vert_outer, if_pos hcur]
      constructor
      · rw [hrow.1, hrest.1]
        rfl
      · rw [hrest.2]
        exact Bool.and_false _

/-- With a non-positive custom stripe step the horizontal-orientation outer
walk never advances: it emits nothing and never terminates. -/
lemma ceil_horiz_outer_stall (region : Region) (maxW step th : ℚ)
    (innerFuel : ℕ) (hstep : step ≤ 0) :
    ∀ (fuel : ℕ) (cur : ℚ) (n : ℕ) (otr : Option LeftoverTracker),
      cur < region.max_x →
      (ceil_horiz_outer region maxW step th innerFuel fuel cur n otr).panels = [] ∧
      (ceil_horiz_outer region maxW step th innerFuel fuel cur n otr).complete = false := by
  intro fuel
  induction fuel with
  | zero =>
      intro cur n otr hcur
      simp only [ceil_horiz_outer, if_pos hcur]
      exact ⟨trivial, trivial⟩
  | succ f ih =>
      intro cur n otr hcur
      have hcpw : min step (region.max_x - cur) ≤ 0 := le_trans (min_le_left _ _) hstep
      have hrow := ceil_horiz_inner_noemit region maxW (min step (region.max_x - cur))
        cur th hcpw innerFuel region.min_y n otr
      have hnext : cur + step < region.max_x :=
        lt_of_le_of_lt (by linarith : cur + step ≤ cur) hcur
      have hrest := ih (cur + step)
        (ceil_horiz_inner region maxW (min step (region.max_x - cur)) cur th
          innerFuel region.min_y n otr).pid
        (ceil_horiz_inner region maxW (min step (region.max_x - cur)) cur th
          innerFuel region.min_y n otr).otr hnext
      simp only [ceil_horiz_outer, if_pos hcur]
      constructor
      · rw [hrow.1, hrest.1]
        rfl
      · rw [hrest.2]
        exact Bool.and_false _

/-- Every walk advancing by `min step (hi − cur)` ends within
`fuel` iterations once `hi − cur ≤ fuel · step`: specialised to the
vertical-branch inner loop. -/
lemma ceil_vert_inner_complete (region : Region) (maxW cph cur_y th : ℚ)
    (hw : 0 < maxW) :
    ∀ (fuel : ℕ) (cur : ℚ) (n : ℕ) (otr : Option LeftoverTracker),
      region.max_x - cur ≤ (fuel : ℚ) * maxW →
      (ceil_vert_inner region maxW cph cur_y th fuel cur n otr).complete = true := by
  intro fuel
  induction fuel with
  | zero =>
      intro cur n otr hfuel
      have hcur : ¬ cur < region.max_x := by
        push_cast at hfuel
        intro h
        linarith
      simp only [ceil_vert_inner, if_neg hcur]
  | succ f ih =>
      intro cur n otr hfuel
      by_cases hcur : cur < region.max_x
      · have hnext : region.max_x - (cur + min maxW (region.max_x - cur)) ≤ (f : ℚ) * maxW := by
          rcases le_total maxW (region.max_x - cur) with hle | hle
          · rw [min_eq_left hle]
            push_cast at hfuel ⊢
            linarith
          · rw [min_eq_right hle]
            have : (0 : ℚ) ≤ (f : ℚ) * maxW :=
              mul_nonneg (Nat.cast_nonneg f) (le_of_lt hw)
            linarith
        simp only [ceil_vert_inner, if_pos hcur]
        split
        · exact ih _ _ _ hnext
        · exact ih _ _ _ hnext
      · simp only [ceil_vert_inner, if_neg hcur]

/-- Completion of the horizontal-branch inner loop. -/
lemma ceil_horiz_inner_complete (region : Region) (maxW cpw cur_x th : ℚ)
    (hw : 0 < maxW) :
    ∀ (fuel : ℕ) (cur : ℚ) (n : ℕ) (otr : Option LeftoverTracker),
      region.max_y - cur ≤ (fuel : ℚ) * maxW →
      (ceil_horiz_inner region maxW cpw cur_x th fuel cur n otr).complete = true := by
  intro fuel
  induction fuel with
  | zero =>
      intro cur n otr hfuel
      have hcur : ¬ cur < region.max_y := by
        push_cast at hfuel
        intro h
        linarith
      simp only [ceil_horiz_inner, if_neg hcur]
  | succ f ih =>
      intro cur n otr hfuel
      by_cases hcur : cur < region.max_y
      · have hnext : region.max_y - (cur + min maxW (region.max_y - cur)) ≤ (f : ℚ) * maxW := by
          rcases le_total maxW (region.max_y - cur) with hle | hle
          · rw [min_eq_left hle]
            push_cast at hfuel ⊢
            linarith
          · rw [min_eq_right hle]
            have : (0 : ℚ) ≤ (f : ℚ) * maxW :=
              mul_nonneg (Nat.cast_nonneg f) (le_of_lt hw)
            linarith
        simp only [ceil_horiz_inner, if_pos hcur]
        split
        · exact ih _ _ _ hnext
        · exact ih _ _ _ hnext
      · simp only [ceil_horiz_inner, if_neg hcur]

/-- Completion of the vertical-orientation outer loop: the stripe step is
positive and every row's inner walk completes. -/
lemma ceil_vert_outer_complete (region : Region) (maxW step th : ℚ)
    (innerFuel : ℕ) (hs : 0 < step) (hw : 0 < maxW)
    (hin : region.max_x - region.min_x ≤ (innerFuel : ℚ) * maxW) :
    ∀ (fuel : ℕ) (cur : ℚ) (n : ℕ) (otr : Option LeftoverTracker),
      region.max_y - cur ≤ (fuel : ℚ) * step →
      (ceil_vert_outer region maxW step th innerFuel fuel cur n otr).complete = true := by
  intro fuel
  induction fuel with
  | zero =>
      intro cur n otr hfuel
      have hcur : ¬ cur < region.max_y := by
        push_cast at hfuel
        intro h
        linarith
      simp only [ceil_vert_outer, if_neg hcur]
  | succ f ih =>
      intro cur n otr hfuel
      by_cases hcur : cur < region.max_y
      · have hrow := ceil_vert_inner_complete region maxW
          (min step (region.max_y - cur)) cur th hw innerFuel region.min_x n otr hin
        have hnext : region.max_y - (cur + step) ≤ (f : ℚ) * step := by
          push_cast at hfuel ⊢
          linarith
        have hrest := ih (cur + step)
          (ceil_vert_inner region maxW (min step (region.max_y - cur)) cur th
            innerFuel region.min_x n otr).pid
          (ceil_vert_inner region maxW (min step (region.max_y - cur)) cur th
            innerFuel region.min_x n otr).otr hnext
        simp only [ceil_vert_outer, if_pos hcur]
        rw [hrow, hrest]
        rfl
      · simp only [ceil_vert_outer, if_neg hcur]

/-- Completion of the horizontal-orientation outer loop. -/
lemma ceil_horiz_outer_complete (region : Region) (maxW step th : ℚ)
    (innerFuel : ℕ) (hs : 0 < step) (hw : 0 < maxW)
    (hin : region.max_y - region.min_y ≤ (innerFuel : ℚ) * maxW) :
    ∀ (fuel : ℕ) (cur : ℚ) (n : ℕ) (otr : Option LeftoverTracker),
      region.max_x - cur ≤ (fuel : ℚ) * step →
      (ceil_horiz_outer region maxW step th innerFuel fuel cur n otr).complete = true := by
  intro fuel
  induction fuel with
  | zero =>
      intro cur n otr hfuel
      have hcur : ¬ cur < region.max_x := by
        push_cast at hfuel
        intro h
        linarith
      simp only [ceil_horiz_outer, if_neg hcur]
  | succ f ih =>
      intro cur n otr hfuel
      by_cases hcur : cur < region.max_x
      · have hrow := ceil_horiz_inner_complete region maxW
          (min step (region.max_x - cur)) cur th hw innerFuel region.min_y n otr hin
        have hnext : region.max_x - (cur + step) ≤ (f : ℚ) * step := by
          push_cast at hfuel ⊢
          linarith
        have hrest := ih (cur + step)
          (ceil_horiz_inner region maxW (min step (region.max_x - cur)) cur th
            innerFuel region.min_y n otr).pid
          (ceil_horiz_inner region maxW (min step (region.max_x - cur)) cur th
            innerFuel region.min_y n otr).otr hnext
        simp only [ceil_horiz_outer, if_pos hcur]
        rw [hrow, hrest]
        rfl
      · simp only [ceil_horiz_outer, if_neg hcur]

/-- Every panel the vertical-branch inner loop emits has positive width and
length (the emission guard requires both). -/
lemma ceil_vert_inner_pos (region : Region) (maxW cph cur_y th : ℚ) :
    ∀ (fuel : ℕ) (cur : ℚ) (n : ℕ) (otr : Option LeftoverTracker),
      ∀ p ∈ (ceil_vert_inner region maxW cph cur_y th fuel cur n otr).panels,
        0 < p.width ∧ 0 < p.length := by
  intro fuel
  induction fuel with
  | zero =>
      intro cur n otr p hp
      simp only [ceil_vert_inner] at hp
      split at hp <;> cases hp
  | succ f ih =>
      intro cur n otr p hp
      simp only [ceil_vert_inner] at hp
      split at hp
      · split at hp
        · rename_i hguard
          rcases List.mem_cons.mp hp with rfl | hp'
          · exact hguard
          · exact ih _ _ _ p hp'
        · exact ih _ _ _ p hp
      · cases hp

/-- Every panel the horizontal-branch inner loop emits has positive width
and length. -/
lemma ceil_horiz_inner_pos (region : Region) (maxW cpw cur_x th : ℚ) :
    ∀ (fuel : ℕ) (cur : ℚ) (n : ℕ) (otr : Option LeftoverTracker),
      ∀ p ∈ (ceil_horiz_inner region maxW cpw cur_x th fuel cur n otr).panels,
        0 < p.length ∧ 0 < p.width := by
  intro fuel
  induction fuel with
  | zero =>
      intro cur n otr p hp
      simp only [ceil_horiz_inner] at hp
      split at hp <;> cases hp
  | succ f ih =>
      intro cur n otr p hp
      simp only [ceil_horiz_inner] at hp
      split at hp
      · split at hp
        · rename_i hguard
          rcases List.mem_cons.mp hp with rfl | hp'
          · exact hguard
          · exact ih _ _ _ p hp'
        · exact ih _ _ _ p hp
      · cases hp

/-- Positivity propagated through the vertical-orientation outer loop. -/
lemma ceil_vert_outer_pos (region : Region) (maxW step th : ℚ) (innerFuel : ℕ) :
    ∀ (fuel : ℕ) (cur : ℚ) (n : ℕ) (otr : Option LeftoverTracker),
      ∀ p ∈ (ceil_vert_outer region maxW step th innerFuel fuel cur n otr).panels,
        0 < p.width ∧ 0 < p.length := by
  intro fuel
  induction fuel with
  | zero =>
      intro cur n otr p hp
      simp only [ceil_vert_outer] at hp
      split at hp <;> cases hp
  | succ f ih =>
      intro cur n otr p hp
      simp only [ceil_vert_outer] at hp
      split at hp
      · rcases List.mem_append.mp hp with hp' | hp'
        · exact ceil_vert_inner_pos region maxW _ cur th innerFuel region.min_x n otr p hp'
        · exact ih _ _ _ p hp'
      · cases hp

/-- Positivity propagated through the horizontal-orientation outer loop. -/
lemma ceil_horiz_outer_pos (region : Region) (maxW step th : ℚ) (innerFuel : ℕ) :
    ∀ (fuel : ℕ) (cur : ℚ) (n : ℕ) (otr : Option LeftoverTracker),
      ∀ p ∈ (ceil_horiz_outer region maxW step th innerFuel fuel cur n otr).panels,
        0 < p.width ∧ 0 < p.length := by
  intro fuel
  induction fuel with
  | zero =>
      intro cur n otr p hp
      simp only [ceil_horiz_outer] at hp
      split at hp <;> cases hp
  | succ f ih =>
      intro cur n otr p hp
      simp only [ceil_horiz_outer] at hp
      split at hp
      · rcases List.mem_append.mp hp with hp' | hp'
        · have h := ceil_horiz_inner_pos region maxW _ cur th innerFuel region.min_y n otr p hp'
          exact ⟨h.2, h.1⟩
        · exact ih _ _ _ p hp'
      · cases hp

/-- The fuel `regionFuel lo hi step` really suffices to walk from `lo` to
`hi` in steps of `step`. -/
lemma regionFuel_spec (lo hi step : ℚ) (h : 0 < step) :
    hi - lo ≤ (regionFuel lo hi step : ℚ) * step := by
  unfold regionFuel
  rw [if_pos h]
  have h1 : (hi - lo) / step ≤ (⌈(hi - lo) / step⌉ : ℚ) := Int.le_ceil _
  have h2 : ((⌈(hi - lo) / step⌉ : ℤ) : ℚ) ≤ ((⌈(hi - lo) / step⌉.toNat : ℤ) : ℚ) := by
    exact_mod_cast Int.self_le_toNat _
  have h3 : (hi - lo) / step ≤ ((⌈(hi - lo) / step⌉.toNat : ℕ) : ℚ) + 1 := by
    push_cast at h2 ⊢
    linarith
  have h5 : (hi - lo) / step * step ≤ (((⌈(hi - lo) / step⌉.toNat : ℕ) : ℚ) + 1) * step :=
    mul_le_mul_of_nonneg_right h3 (le_of_lt h)
  have h6 : (hi - lo) / step * step = hi - lo := div_mul_cancel₀ _ (ne_of_gt h)
  push_cast
  linarith

/-! ## C10 -/

/-- C10: for a genuine rectangular region, a positive `max_panel_width` and
a panel length that is `auto` or positive, `_generate_panels_for_region`
terminates (every loop iteration advances by a positive panel dimension —
witnessed by the completion flag under the precomputed fuel) and every
returned panel has positive width and length; with a zero-or-negative
custom panel length the stripe walk never advances (no panels, no
termination, for any amount of fuel). -/
theorem region_generation_terminates (region : Region) (orientation : String)
    (maxW : ℚ) (sid : ℕ) (pl : PanelLen) (otr : Option LeftoverTracker) (th : ℚ)
    (hx : region.min_x < region.max_x) (hy : region.min_y < region.max_y)
    (hwidth : region.width = region.max_x - region.min_x)
    (hheight : region.height = region.max_y - region.min_y)
    (hmw : 0 < maxW)
    (hpl : pl = PanelLen.auto ∨ ∃ v, pl = PanelLen.custom v ∧ 0 < v) :
    (generate_panels_for_region region orientation maxW sid pl otr th).complete = true ∧
    (∀ p ∈ (generate_panels_for_region region orientation maxW sid pl otr th).panels,
      0 < p.width ∧ 0 < p.length) ∧
    (∀ v ≤ (0 : ℚ), ∀ (innerFuel fuel n : ℕ) (otr2 : Option LeftoverTracker),
      ((ceil_vert_outer region maxW v th innerFuel fuel region.min_y n otr2).panels = [] ∧
        (ceil_vert_outer region maxW v th innerFuel fuel region.min_y n otr2).complete
          = false) ∧
      ((ceil_horiz_outer region maxW v th innerFuel fuel region.min_x n otr2).panels = [] ∧
        (ceil_horiz_outer region maxW v th innerFuel fuel region.min_x n otr2).complete
          = false)) := by
  refine ⟨?_, ?_, ?_⟩
  · unfold generate_panels_for_region
    by_cases horient : orientation = "horizontal"
    · rw [if_pos horient]
      rcases hpl with rfl | ⟨v, rfl, hv⟩
      · have hstep : (0 : ℚ) < region.width := by rw [hwidth]; linarith
        exact ceil_horiz_outer_complete region maxW region.width th _ hstep hmw
          (regionFuel_spec region.min_y region.max_y maxW hmw) _ region.min_x sid otr
          (regionFuel_spec region.min_x region.max_x region.width hstep)
      · exact ceil_horiz_outer_complete region maxW v th _ hv hmw
          (regionFuel_spec region.min_y region.max_y maxW hmw) _ region.min_x sid otr
          (regionFuel_spec region.min_x region.max_x v hv)
    · rw [if_neg horient]
      rcases hpl with rfl | ⟨v, rfl, hv⟩
      · have hstep : (0 : ℚ) < region.height := by rw [hheight]; linarith
        exact ceil_vert_outer_complete region maxW region.height th _ hstep hmw
          (regionFuel_spec region.min_x region.max_x maxW hmw) _ region.min_y sid otr
          (regionFuel_spec region.min_y region.max_y region.height hstep)
      · exact ceil_vert_outer_complete region maxW v th _ hv hmw
          (regionFuel_spec region.min_x region.max_x maxW hmw) _ region.min_y sid otr
          (regionFuel_spec region.min_y region.max_y v hv)
  · unfold generate_panels_for_region
    by_cases horient : orientation = "horizontal"
    · rw [if_pos horient]
      intro p hp
      exact ceil_horiz_outer_pos region maxW _ th _ _ region.min_x sid otr p hp
    · rw [if_neg horient]
      intro p hp
      exact ceil_vert_outer_pos region maxW _ th _ _ region.min_y sid otr p hp
  · intro v hv innerFuel fuel n otr2
    exact ⟨ceil_vert_outer_stall region maxW v th innerFuel hv fuel region.min_y n otr2 hy,
      ceil_horiz_outer_stall region maxW v th innerFuel hv fuel region.min_x n otr2 hx⟩

/-- C10 witnessed on the S1 region (0,0)–(5000,3000), vertical orientation,
auto length, width 1150. -/
theorem region_generation_terminates_witness :
    (generate_panels_for_region ⟨0, 5000, 0, 3000, 5000, 3000, "rectangular"⟩
      "vertical" 1150 1 PanelLen.auto (some (LeftoverTracker.mk0 0)) 20).complete = true ∧
    (∀ p ∈ (generate_panels_for_region ⟨0, 5000, 0, 3000, 5000, 3000, "rectangular"⟩
        "vertical" 1150 1 PanelLen.auto (some (LeftoverTracker.mk0 0)) 20).panels,
      0 < p.width ∧ 0 < p.length) ∧
    (∀ v ≤ (0 : ℚ), ∀ (innerFuel fuel n : ℕ) (otr2 : Option LeftoverTracker),
      ((ceil_vert_outer ⟨0, 5000, 0, 3000, 5000, 3000, "rectangular"⟩ 1150 v 20
          innerFuel fuel (Region.min_y ⟨0, 5000, 0, 3000, 5000, 3000, "rectangular"⟩)
          n otr2).panels = [] ∧
        (ceil_vert_outer ⟨0, 5000, 0, 3000, 5000, 3000, "rectangular"⟩ 1150 v 20
          innerFuel fuel (Region.min_y ⟨0, 5000, 0, 3000, 5000, 3000, "rectangular"⟩)
          n otr2).complete = false) ∧
      ((ceil_horiz_outer ⟨0, 5000, 0, 3000, 5000, 3000, "rectangular"⟩ 1150 v 20
          innerFuel fuel (Region.min_x ⟨0, 5000, 0, 3000, 5000, 3000, "rectangular"⟩)
          n otr2).panels = [] ∧
        (ceil_horiz_outer ⟨0, 5000, 0, 3000, 5000, 3000, "rectangular"⟩ 1150 v 20
          innerFuel fuel (Region.min_x ⟨0, 5000, 0, 3000, 5000, 3000, "rectangular"⟩)
          n otr2).complete = false)) :=
  region_generation_terminates ⟨0, 5000, 0, 3000, 5000, 3000, "rectangular"⟩
    "vertical" 1150 1 PanelLen.auto (some (LeftoverTracker.mk0 0)) 20
    (by decide) (by decide) rfl rfl (by decide) (Or.inl rfl)

/-! ## C9 -/

/-- C9 counterexample: the request-handling layer does not reject
`panel_width ≤ 0` or `custom_panel_length ≤ 0` — both pass the view's
parameter checks with no error (there is no InvalidParams condition in the
code). -/
theorem invalid_params_not_rejected :
    ceiling_view_param_check (some 1) 0 PanelLen.auto (some (-100)) = none ∧
    ceiling_view_param_check (some 1) (-5) (PanelLen.custom (-100)) none = none :=
  ⟨rfl, rfl⟩

/-- C9 amended: no InvalidParams validation exists.  A request with
`panel_width ≤ 0` or `custom_panel_length ≤ 0` passes the view's parameter
checks; generation then emits no panels but also never returns — with
non-positive `panel_width` the inner panel walks never advance, and with a
non-positive custom panel length the outer stripe walks never advance — so
no user-visible error of any kind is produced. -/
theorem invalid_params_amended (pid : ℤ) (pw v : ℚ) (cpl : Option ℚ)
    (region : Region) (hpw : pw ≤ 0) (hv : v ≤ 0) :
    ceiling_view_param_check (some pid) pw (PanelLen.custom v) cpl = none ∧
    (∀ (cph cur_y th : ℚ) (fuel n : ℕ) (otr : Option LeftoverTracker) (cur : ℚ),
      cur < region.max_x →
      ceil_vert_inner region pw cph cur_y th fuel cur n otr = ⟨[], n, otr, false⟩) ∧
    (∀ (cpw cur_x th : ℚ) (fuel n : ℕ) (otr : Option LeftoverTracker) (cur : ℚ),
      cur < region.max_y →
      ceil_horiz_inner region pw cpw cur_x th fuel cur n otr = ⟨[], n, otr, false⟩) ∧
    (∀ (maxW th : ℚ) (innerFuel fuel n : ℕ) (otr : Option LeftoverTracker) (cur : ℚ),
      cur < region.max_y →
      (ceil_vert_outer region maxW v th innerFuel fuel cur n otr).panels = [] ∧
      (ceil_vert_outer region maxW v th innerFuel fuel cur n otr).complete = false) ∧
    (∀ (maxW th : ℚ) (innerFuel fuel n : ℕ) (otr : Option LeftoverTracker) (cur : ℚ),
      cur < region.max_x →
      (ceil_horiz_outer region maxW v th innerFuel fuel cur n otr).panels = [] ∧
      (ceil_horiz_outer region maxW v th innerFuel fuel cur n otr).complete = false) := by
  refine ⟨rfl, ?_, ?_, ?_, ?_⟩
  · intro cph cur_y th fuel n otr cur hcur
    exact ceil_vert_inner_stall region pw cph cur_y th hpw fuel cur n otr hcur
  · intro cpw cur_x th fuel n otr cur hcur
    exact ceil_horiz_inner_stall region pw cpw cur_x th hpw fuel cur n otr hcur
  · intro maxW th innerFuel fuel n otr cur hcur
    exact ceil_vert_outer_stall region maxW v th innerFuel hv fuel cur n otr hcur
  · intro maxW th innerFuel fuel n otr cur hcur
    exact ceil_horiz_outer_stall region maxW v th innerFuel hv fuel cur n otr hcur

/-- C9 amended, witnessed at `panel_width = 0`,
`custom_panel_length = −50` on the S1 region. -/
theorem invalid_params_amended_witness :
    ceiling_view_param_check (some 7) 0 (PanelLen.custom (-50)) (some (-50)) = none ∧
    (∀ (cph cur_y th : ℚ) (fuel n : ℕ) (otr : Option LeftoverTracker) (cur : ℚ),
      cur < (⟨0, 5000, 0, 3000, 5000, 3000, "rectangular"⟩ : Region).max_x →
      ceil_vert_inner ⟨0, 5000, 0, 3000, 5000, 3000, "rectangular"⟩ 0 cph cur_y th
        fuel cur n otr = ⟨[], n, otr, false⟩) ∧
    (∀ (cpw cur_x th : ℚ) (fuel n : ℕ) (otr : Option LeftoverTracker) (cur : ℚ),
      cur < (⟨0, 5000, 0, 3000, 5000, 3000, "rectangular"⟩ : Region).max_y →
      ceil_horiz_inner ⟨0, 5000, 0, 3000, 5000, 3000, "rectangular"⟩ 0 cpw cur_x th
        fuel cur n otr = ⟨[], n, otr, false⟩) ∧
    (∀ (maxW th : ℚ) (innerFuel fuel n : ℕ) (otr : Option LeftoverTracker) (cur : ℚ),
      cur < (⟨0, 5000, 0, 3000, 5000, 3000, "rectangular"⟩ : Region).max_y →
      (ceil_vert_outer ⟨0, 5000, 0, 3000, 5000, 3000, "rectangular"⟩ maxW (-50) th
        innerFuel fuel cur n otr).panels = [] ∧
      (ceil_vert_outer ⟨0, 5000, 0, 3000, 5000, 3000, "rectangular"⟩ maxW (-50) th
        innerFuel fuel cur n otr).complete = false) ∧
    (∀ (maxW th : ℚ) (innerFuel fuel n : ℕ) (otr : Option LeftoverTracker) (cur : ℚ),
      cur < (⟨0, 5000, 0, 3000, 5000, 3000, "rectangular"⟩ : Region).max_x →
      (ceil_horiz_outer ⟨0, 5000, 0, 3000, 5000, 3000, "rectangular"⟩ maxW (-50) th
        innerFuel fuel cur n otr).panels = [] ∧
      (ceil_horiz_outer ⟨0, 5000, 0, 3000, 5000, 3000, "rectangular"⟩ maxW (-50) th
        innerFuel fuel cur n otr).complete = false) :=
  invalid_params_amended 7 0 (-50) (some (-50))
    ⟨0, 5000, 0, 3000, 5000, 3000, "rectangular"⟩ (by decide) (by decide)

end ModelV7
